import Mathlib

/-!
Verification of the Entity-Graph-to-Script Compiler (ob-poc).

Shallow embedding of the Python sources:
- `src/scripts/generate_allianz_full_dsl.py` (slugify, escape, main compile)
- `src/data/seed/allianzgi/csv_to_dsl.py` (sanitize_var_name,
  parse_share_class_type, generate_dsl)
- `src/scripts/gleif_allianz_chain.py` (trace_parent_chain)
- `src/scripts/gleif_extract_allianz.py` (GLEIFExtractor.trace_ownership_chain)

Conventions: Python strings are Lean `String`/`List Char` (`str.strip()` is
modelled by the exact Unicode whitespace set Python strips;
`str.lower`/`str.upper` are modelled on ASCII, which is exact on the ASCII
inputs used here); machine words in SHA-1 are `Nat` reduced mod 2^32; external HTTP
fetches are oracles `String → Option _` (a `none` models a 404, a non-2xx
status caught by `raise_for_status` inside the `except RequestException`
handler, or a network error — all of which the fetch helpers turn into
`None`); Python dicts used with last-write-wins assignment are association
lists with prepend-insert and first-match lookup.
-/

set_option maxRecDepth 100000

/-! ### ASCII case mapping (model of `str.lower` / `str.upper`) -/

def asciiLowerChar (c : Char) : Char :=
  if 'A' ≤ c ∧ c ≤ 'Z' then Char.ofNat (c.toNat + 32) else c

def asciiUpperChar (c : Char) : Char :=
  if 'a' ≤ c ∧ c ≤ 'z' then Char.ofNat (c.toNat - 32) else c

def asciiLower (s : String) : String := String.mk (s.data.map asciiLowerChar)

def asciiUpper (s : String) : String := String.mk (s.data.map asciiUpperChar)

/-! ### SHA-1 (model of `hashlib.sha1(...).hexdigest()` used by `slugify`) -/

def w32 (n : Nat) : Nat := n % 4294967296

def rotl32 (b n : Nat) : Nat := (n * 2 ^ b + n / 2 ^ (32 - b)) % 4294967296

def not32 (n : Nat) : Nat := 4294967295 - n

/-- UTF-8 bytes of a string (model of Python `str.encode()`). -/
def utf8Bytes (s : String) : List Nat :=
  s.data.flatMap fun c =>
    let n := c.toNat
    if n < 128 then [n]
    else if n < 2048 then [192 + n / 64, 128 + n % 64]
    else if n < 65536 then [224 + n / 4096, 128 + n / 64 % 64, 128 + n % 64]
    else [240 + n / 262144, 128 + n / 4096 % 64, 128 + n / 64 % 64, 128 + n % 64]

def be64 (n : Nat) : List Nat :=
  [n / 2 ^ 56 % 256, n / 2 ^ 48 % 256, n / 2 ^ 40 % 256, n / 2 ^ 32 % 256,
   n / 2 ^ 24 % 256, n / 2 ^ 16 % 256, n / 2 ^ 8 % 256, n % 256]

def sha1Pad (msg : List Nat) : List Nat :=
  let z := (120 - (msg.length + 1) % 64) % 64
  msg ++ [128] ++ List.replicate z 0 ++ be64 (msg.length * 8)

def blocks64 : Nat → List Nat → List (List Nat)
  | 0, _ => []
  | n + 1, l => l.take 64 :: blocks64 n (l.drop 64)

def word32At (bs : List Nat) : Nat :=
  bs.getD 0 0 * 16777216 + bs.getD 1 0 * 65536 + bs.getD 2 0 * 256 + bs.getD 3 0

def blockWords (block : List Nat) : List Nat :=
  (List.range 16).map fun i => word32At (block.drop (4 * i))

def extendWords (w16 : List Nat) : List Nat :=
  (List.range 80).foldl (fun acc t =>
    if t < 16 then acc ++ [w16.getD t 0]
    else acc ++ [rotl32 1 ((acc.getD (t - 3) 0) ^^^ (acc.getD (t - 8) 0) ^^^
                           (acc.getD (t - 14) 0) ^^^ (acc.getD (t - 16) 0))]) []

def sha1F (t b c d : Nat) : Nat :=
  if t < 20 then (b &&& c) ||| (not32 b &&& d)
  else if t < 40 then b ^^^ c ^^^ d
  else if t < 60 then (b &&& c) ||| (b &&& d) ||| (c &&& d)
  else b ^^^ c ^^^ d

def sha1K (t : Nat) : Nat :=
  if t < 20 then 1518500249
  else if t < 40 then 1859775393
  else if t < 60 then 2400959708
  else 3395469782

def sha1Round (w : List Nat) (st : Nat × Nat × Nat × Nat × Nat) (t : Nat) :
    Nat × Nat × Nat × Nat × Nat :=
  let (a, b, c, d, e) := st
  let temp := w32 (rotl32 5 a + sha1F t b c d + e + sha1K t + w.getD t 0)
  (temp, a, rotl32 30 b, c, d)

def sha1Block (h : Nat × Nat × Nat × Nat × Nat) (block : List Nat) :
    Nat × Nat × Nat × Nat × Nat :=
  let w := extendWords (blockWords block)
  let (h0, h1, h2, h3, h4) := h
  let (a, b, c, d, e) := (List.range 80).foldl (sha1Round w) (h0, h1, h2, h3, h4)
  (w32 (h0 + a), w32 (h1 + b), w32 (h2 + c), w32 (h3 + d), w32 (h4 + e))

def hexDigit (n : Nat) : Char :=
  if n < 10 then Char.ofNat (48 + n) else Char.ofNat (87 + n)

def hex8 (n : Nat) : List Char :=
  (List.range 8).map fun i => hexDigit (n / 2 ^ (4 * (7 - i)) % 16)

/-- Lowercase hex SHA-1 digest of a string (Python `hashlib.sha1(x.encode()).hexdigest()`). -/
def sha1Hex (s : String) : String :=
  let padded := sha1Pad (utf8Bytes s)
  let bs := blocks64 (padded.length / 64) padded
  let (h0, h1, h2, h3, h4) :=
    bs.foldl sha1Block (1732584193, 4023233417, 2562383102, 271733878, 3285377520)
  String.mk (hex8 h0 ++ hex8 h1 ++ hex8 h2 ++ hex8 h3 ++ hex8 h4)

/-! ### slugify / sanitize_var_name (binding allocators) -/

def isSlugChar (c : Char) : Bool :=
  ('a' ≤ c && c ≤ 'z') || ('0' ≤ c && c ≤ '9')

/-- Replace each maximal run of characters outside `[a-z0-9]` by a single `'_'`
(model of `re.sub(r"[^a-z0-9]+", "_", text)`); the `Bool` records whether the
previous character belonged to such a run. -/
def collapseRunsAux : Bool → List Char → List Char
  | _, [] => []
  | prevBad, c :: rest =>
    if isSlugChar c then c :: collapseRunsAux false rest
    else if prevBad then collapseRunsAux true rest
    else '_' :: collapseRunsAux true rest

def collapseRuns (l : List Char) : List Char := collapseRunsAux false l

/-- Model of Python `str.strip("_")`. -/
def stripUnderscores (l : List Char) : List Char :=
  ((l.dropWhile (· == '_')).reverse.dropWhile (· == '_')).reverse

/-- The normalization core of `slugify`: lower-case, collapse non-alphanumeric
runs to `'_'`, strip outer underscores (lines 33-35 of
generate_allianz_full_dsl.py). -/
def slugCore (text : String) : String :=
  String.mk (stripUnderscores (collapseRuns (asciiLower text).data))

/-- `slugify` from src/scripts/generate_allianz_full_dsl.py lines 31-42. -/
def slugify (text : String) (max_len : Nat := 30) : String :=
  let t := slugCore text
  if t = "" then "entity_" ++ (sha1Hex text).take 10
  else if t.length > max_len then t.take (max_len - 7) ++ "_" ++ (sha1Hex text).take 6
  else t

/-- `sanitize_var_name` from src/data/seed/allianzgi/csv_to_dsl.py lines 92-97:
lower-case, replace non-alphanumeric runs by `'_'` (after lowering, the ASCII
classes `[^a-zA-Z0-9]` and `[^a-z0-9]` coincide), collapse repeated
underscores, strip, truncate to 50 characters with no collision handling. -/
def sanitize_var_name (name : String) : String :=
  (String.mk (stripUnderscores (collapseRuns (asciiLower name).data))).take 50

/-! ### escape / unescape (string embedding into the DSL) -/

/-- The characters Python `str.strip()` removes — exactly the code points
for which `str.isspace()` holds: `\t\n\x0b\x0c\r` (9-13), the ASCII
separators `\x1c`-`\x1f` (28-31), space (32), NEL `\x85` (133), NBSP `\xa0`
(160), Ogham space (5760), the typographic spaces U+2000-U+200A
(8192-8202), line/paragraph separators U+2028/U+2029 (8232/8233), U+202F
(8239), U+205F (8287), and ideographic space U+3000 (12288). -/
def isPyWS (c : Char) : Bool :=
  let n := c.toNat
  (9 ≤ n && n ≤ 13) || (28 ≤ n && n ≤ 31) || n == 32 || n == 133 || n == 160 ||
  n == 5760 || (8192 ≤ n && n ≤ 8202) || n == 8232 || n == 8233 || n == 8239 ||
  n == 8287 || n == 12288

/-- Model of `str.strip()`. -/
def stripWS (l : List Char) : List Char :=
  ((l.dropWhile isPyWS).reverse.dropWhile isPyWS).reverse

/-- Model of `s.replace('"', '\\"')` (per-character substitution). -/
def escapeQuote (l : List Char) : List Char :=
  l.flatMap fun c => if c == '"' then ['\\', '"'] else [c]

def nlToSpace (c : Char) : Char := if c == '\n' then ' ' else c

/-- `escape` from src/scripts/generate_allianz_full_dsl.py lines 44-47:
`s.replace('"', '\\"').replace('\n', ' ').strip()`.  (The `s is None` guard
returns `""`; callers in scope always pass a present string field.) -/
def escape (s : String) : String :=
  String.mk (stripWS ((escapeQuote s.data).map nlToSpace))

/-- Re-parser of the emitted string literal: reads the two-character escape
`\"` back as `"` and every other character as itself. -/
def unescapeAux : List Char → List Char
  | [] => []
  | [c] => [c]
  | c :: d :: rest =>
    if c == '\\' && d == '"' then '"' :: unescapeAux rest
    else c :: unescapeAux (d :: rest)

def unescape (s : String) : String := String.mk (unescapeAux s.data)

/-! ### parse_share_class_type (csv_to_dsl.py lines 51-77) -/

def charsHavePre : List Char → List Char → Bool
  | [], _ => true
  | _ :: _, [] => false
  | c :: cs, d :: ds => c == d && charsHavePre cs ds

def containsSubAux (needle : List Char) : List Char → Bool
  | [] => charsHavePre needle []
  | c :: rest => charsHavePre needle (c :: rest) || containsSubAux needle rest

/-- Model of Python `needle in hay` on strings. -/
def containsSub (hay needle : String) : Bool := containsSubAux needle.data hay.data

def instMarker (name_upper : String) : Bool :=
  [" IT ", " WT ", " I ", " W ", " PT "].any fun x => containsSub name_upper x

def distMarker (name_upper : String) : Bool :=
  ["DM ", "ADM", " D ", " DIS"].any fun x => containsSub name_upper x

def hedgeMarker (name_upper : String) : Bool :=
  containsSub name_upper "H2" || containsSub name_upper "(H-" ||
  containsSub name_upper "HEDGED"

/-- `parse_share_class_type` from src/data/seed/allianzgi/csv_to_dsl.py
lines 51-77. -/
def parse_share_class_type (name : String) : String × String × Bool :=
  let name_upper := asciiUpper name
  let share_type := if instMarker name_upper then "INSTITUTIONAL" else "RETAIL"
  let dist_type := if distMarker name_upper then "DIST" else "ACC"
  let is_hedged := hedgeMarker name_upper
  (share_type, dist_type, is_hedged)

/-! ### Data model of the compiler inputs (generate_allianz_full_dsl.py) -/

/-- One entry of `gleif["ownership_chain"]` / `gleif["subsidiaries"]`:
`jurisdiction` is `Option` because the code reads it with `dict.get` and a
default; `registration_number` and `ubo_terminus` default to `""`/`False`. -/
structure GleifEntity where
  lei : String
  legal_name : String
  jurisdiction : Option String
  registration_number : String
  ubo_terminus : Bool
deriving DecidableEq, Repr

/-- One entry of `gleif["relationships"]`. -/
structure OwnershipRel where
  child_lei : String
  parent_lei : String
deriving DecidableEq, Repr

/-- The JSON document loaded by `load_gleif` (ownership chain, subsidiaries,
relationships; the latter two read with `.get(..., [])`). -/
structure Gleif where
  ownership_chain : List GleifEntity
  subsidiaries : List GleifEntity
  relationships : List OwnershipRel
deriving DecidableEq, Repr

/-- A share-class object inside a fund record (`shareClasses` array). -/
structure ShareClassJson where
  isin : String
  shareClassName : String
  currency : String
deriving DecidableEq, Repr

/-- A fund record from `load_funds` (with `_region` attached; a missing
`fundName` key is modelled as `""`, which the dedup step drops exactly like
the Python `key[0]` truthiness test does). -/
structure FundJson where
  fundName : String
  region : String
  legalStructure : String
  shareClasses : List ShareClassJson
deriving DecidableEq, Repr

/-- A DSL command: its verb, the literal named arguments, the bindings it
references with `@`, and the binding its `:as` clause introduces. -/
structure Cmd where
  verb : String
  args : List (String × String)
  refs : List String
  binds : Option String
deriving DecidableEq, Repr

/-- One emitted script line-block: a `;;` comment line, a blank line, or a
command. -/
inductive Item where
  | comment (text : String)
  | blank
  | cmd (c : Cmd)
deriving DecidableEq, Repr

/-- Python dict with last-write-wins assignment: prepend on insert,
first-match on lookup. -/
def lookupStr (d : List (String × String)) (k : String) : Option String :=
  (d.find? fun p => p.1 == k).map (·.2)

/-- Python truthiness of an optional string (`None` and `""` are falsy). -/
def truthy : Option String → Bool
  | none => false
  | some s => !(s == "")

/-! ### The compile pipeline of generate_allianz_full_dsl.main -/

def ruleComment : String := ";; " ++ String.mk (List.replicate 70 '=')

def chainGleifCount : Option Gleif → Nat
  | none => 0
  | some g => g.ownership_chain.length

def subsGleifCount : Option Gleif → Nat
  | none => 0
  | some g => g.subsidiaries.length

/-- Header block, lines 75-84 (`now` is `datetime.now().isoformat()`). -/
def headerItems (gleif : Option Gleif) (funds : List FundJson) (now : String) :
    List Item :=
  [Item.comment (";; " ++ String.mk (List.replicate 76 '=')),
   Item.comment ";; Allianz Global Investors - Full ETL Load",
   Item.comment (";; Generated: " ++ now),
   Item.comment (";; " ++ String.mk (List.replicate 76 '=')),
   Item.comment ";;",
   Item.comment (";; GLEIF entities: " ++ toString (chainGleifCount gleif)),
   Item.comment (";; Subsidiaries: " ++ toString (subsGleifCount gleif)),
   Item.comment (";; Funds: " ++ toString funds.length),
   Item.comment ";;",
   Item.blank]

/-- The binding `slugify(escape(entity["legal_name"]))` allocated to a GLEIF
entity (lines 101/104 and 122/125). -/
def entityBinding (e : GleifEntity) : String := slugify (escape e.legal_name)

/-- Lines 109-115: one ownership-chain entity command plus trailing blank. -/
def chainEntityItems (e : GleifEntity) : List Item :=
  let name := escape e.legal_name
  let jurisdiction := e.jurisdiction.getD "DE"
  let reg_num := e.registration_number
  let c : Cmd :=
    { verb := "entity.ensure-limited-company",
      args := [("name", name), ("jurisdiction", jurisdiction)] ++
        (if reg_num ≠ "" then [("company-number", reg_num)] else []),
      refs := [], binds := some (entityBinding e) }
  [Item.cmd c, Item.blank]

/-- Lines 128-134: one subsidiary entity command (jurisdiction is
`sub.get("jurisdiction", "")[:2]`). -/
def subEntityItems (e : GleifEntity) : List Item :=
  let name := escape e.legal_name
  let jurisdiction := (e.jurisdiction.getD "").take 2
  let reg_num := e.registration_number
  let c : Cmd :=
    { verb := "entity.ensure-limited-company",
      args := [("name", name), ("jurisdiction", jurisdiction)] ++
        (if reg_num ≠ "" then [("company-number", reg_num)] else []),
      refs := [], binds := some (entityBinding e) }
  [Item.cmd c, Item.blank]

/-- The `lei_bindings` dict after Phase 1: inserts for the reversed chain,
then for the subsidiaries (lines 96-126). -/
def leiBindings (g : Gleif) : List (String × String) :=
  (g.ownership_chain.reverse ++ g.subsidiaries).foldl
    (fun d e => (e.lei, entityBinding e) :: d) []

/-- Phase 1 (lines 89-134): header comments, then — when the GLEIF document
is present — the reversed ownership chain and the subsidiaries. -/
def phase1Items (gleif : Option Gleif) : List Item :=
  [Item.comment ruleComment,
   Item.comment ";; PHASE 1: Ownership Chain (GLEIF)",
   Item.comment ruleComment,
   Item.blank] ++
  match gleif with
  | none => []
  | some g =>
    (g.ownership_chain.reverse.foldl (fun acc e => acc ++ chainEntityItems e) []) ++
    (if g.subsidiaries ≠ [] then
       [Item.comment ";; Subsidiaries"] ++
       g.subsidiaries.foldl (fun acc e => acc ++ subEntityItems e) []
     else [])

/-- Lines 153-158: one ownership relationship command (references the
parent and child bindings). -/
def ownershipCmd (parent_binding child_binding : String) : Cmd :=
  { verb := "ubo.add-ownership",
    args := [("ownership-type", "DIRECT"), ("percentage", "100.0")],
    refs := [parent_binding, child_binding], binds := none }

/-- Phase 2 body (lines 144-158): for each relationship, look up both
endpoint bindings and emit a command only when both are truthy; a dangling
edge contributes nothing (and, notably, no log entry). -/
def phase2Body (g : Gleif) : List Item :=
  g.relationships.foldl (fun acc rel =>
    let child_binding := lookupStr (leiBindings g) rel.child_lei
    let parent_binding := lookupStr (leiBindings g) rel.parent_lei
    if truthy child_binding && truthy parent_binding then
      acc ++ [Item.cmd (ownershipCmd (parent_binding.getD "") (child_binding.getD "")),
              Item.blank]
    else acc) []

def phase2Items (gleif : Option Gleif) : List Item :=
  [Item.comment ruleComment,
   Item.comment ";; PHASE 2: Ownership Relationships",
   Item.comment ruleComment,
   Item.blank] ++
  match gleif with
  | none => []
  | some g => phase2Body g

/-- Phase 3 (lines 163-179): the CBU command binding `@cbu_agi`, then the
role assignment that references `@cbu_agi` and — unconditionally — the
hard-coded binding `@allianz_global_investors_gmbh`. -/
def phase3Items : List Item :=
  let cbuCmd : Cmd :=
    { verb := "cbu.ensure",
      args := [("name", "Allianz Global Investors"), ("jurisdiction", "DE")],
      refs := [], binds := some "cbu_agi" }
  let roleCmd : Cmd :=
    { verb := "cbu.assign-role",
      args := [("role", "MANAGEMENT_COMPANY")],
      refs := ["cbu_agi", "allianz_global_investors_gmbh"], binds := none }
  [Item.comment ruleComment,
   Item.comment ";; PHASE 3: CBU (Client Business Unit)",
   Item.comment ruleComment,
   Item.blank,
   Item.cmd cbuCmd,
   Item.blank,
   Item.cmd roleCmd,
   Item.blank]

/-- Lines 190-196: dedupe funds by `(fundName, _region)`, dropping empty
names, keeping first occurrence in input order. -/
def dedupeFunds (funds : List FundJson) : List FundJson :=
  (funds.foldl (fun (st : List (String × String) × List FundJson) fund =>
      let key := (fund.fundName, fund.region)
      if !st.1.contains key && key.1 ≠ "" then (key :: st.1, st.2 ++ [fund])
      else st)
    ([], [])).2

/-- Line 206: the fund binding `slugify(fund_name + "_" + jurisdiction)`
where `fund_name` is the escaped name and `jurisdiction` the region tag. -/
def fundBinding (fund : FundJson) : String :=
  slugify (escape fund.fundName ++ "_" ++ fund.region)

/-- Lines 235-249: one share-class command (emitted only when the ISIN is
truthy); it references the fund binding and binds `slugify(isin)`. -/
def shareClassItems (binding : String) (sc : ShareClassJson) : List Item :=
  if sc.isin ≠ "" then
    let c : Cmd :=
      { verb := "fund.ensure-share-class",
        args := [("isin", sc.isin), ("name", escape sc.shareClassName),
                 ("currency", sc.currency)],
        refs := [binding], binds := some (slugify sc.isin) }
    [Item.cmd c, Item.blank]
  else []

/-- Lines 201-253: one fund block — the fund command (umbrella for
SICAV/OEIC, sub-fund otherwise), its CBU role assignment, the first 50 share
classes, and the truncation comment when more than 50 were attached. -/
def fundItems (fund : FundJson) : List Item :=
  let fund_name := escape fund.fundName
  let binding := fundBinding fund
  let verb := if fund.legalStructure == "SICAV" || fund.legalStructure == "OEIC"
    then "fund.ensure-umbrella" else "fund.ensure-subfund"
  let fundCmd : Cmd :=
    { verb := verb,
      args := [("name", fund_name), ("jurisdiction", fund.region),
               ("regulatory-status", "UCITS")],
      refs := [], binds := some binding }
  let roleCmd : Cmd :=
    { verb := "cbu.assign-role",
      args := [("role", "FUND")],
      refs := ["cbu_agi", binding], binds := none }
  [Item.cmd fundCmd, Item.blank, Item.cmd roleCmd, Item.blank] ++
  (if fund.shareClasses ≠ [] then
     (fund.shareClasses.take 50).foldl (fun acc sc => acc ++ shareClassItems binding sc) [] ++
     (if fund.shareClasses.length > 50 then
        [Item.comment (";; ... and " ++ toString (fund.shareClasses.length - 50) ++
                       " more share classes (truncated)"),
         Item.blank]
      else [])
   else [])

def phase4Items (funds : List FundJson) : List Item :=
  [Item.comment ruleComment,
   Item.comment (";; PHASE 4: Funds (" ++ toString funds.length ++ " total)"),
   Item.comment ruleComment,
   Item.blank] ++
  (dedupeFunds funds).foldl (fun acc fund => acc ++ fundItems fund) []

/-- The `share_class_count` counter accumulated at line 249. -/
def shareClassCount (funds : List FundJson) : Nat :=
  (dedupeFunds funds).foldl
    (fun n fund => n + (fund.shareClasses.take 50).countP (fun sc => !(sc.isin == ""))) 0

/-- Summary block, lines 258-265. -/
def summaryItems (gleif : Option Gleif) (funds : List FundJson) : List Item :=
  [Item.comment ruleComment,
   Item.comment ";; ETL SUMMARY",
   Item.comment ruleComment,
   Item.comment (";; Ownership chain entities: " ++ toString (chainGleifCount gleif)),
   Item.comment (";; Subsidiaries: " ++ toString (subsGleifCount gleif)),
   Item.comment (";; Funds created: " ++ toString (dedupeFunds funds).length),
   Item.comment (";; Share classes created: " ++ toString (shareClassCount funds)),
   Item.comment ruleComment]

/-- The full compiled script of `main` in generate_allianz_full_dsl.py:
header, the four phases in order, and the summary footer. -/
def generateFullDsl (gleif : Option Gleif) (funds : List FundJson) (now : String) :
    List Item :=
  headerItems gleif funds now ++ phase1Items gleif ++ phase2Items gleif ++
  phase3Items ++ phase4Items funds ++ summaryItems gleif funds

/-- The diagnostics channel of `main`: the function contains no logging or
warning output anywhere in its compile loop — in particular the dangling-edge
branch of Phase 2 (lines 144-158) appends nothing and prints nothing — so the
recorded diagnostics of a run are always empty. -/
def generateFullDslDiags (_gleif : Option Gleif) (_funds : List FundJson) :
    List String := []

/-! ### Referenced-before-bound checking of a compiled script -/

/-- The bindings a script item introduces. -/
def itemBinds : Item → List String
  | Item.cmd c => c.binds.toList
  | _ => []

/-- All bindings introduced by a list of items, in order. -/
def bindsList (items : List Item) : List String := items.flatMap itemBinds

/-- Scan a script left to right: every reference of a command must be in
`bound` (the `:as` targets of strictly earlier commands) or in the fixed
exception list `exc`; with `exc := []` this is exactly the spec's
forward-reference invariant. -/
def fwdOKFrom (exc : List String) : List String → List Item → Bool
  | _, [] => true
  | bound, Item.cmd c :: rest =>
    (c.refs.all fun r => bound.contains r || exc.contains r) &&
    fwdOKFrom exc (bound ++ c.binds.toList) rest
  | bound, _ :: rest => fwdOKFrom exc bound rest

/-- The forward-reference invariant: every binding referenced by a command
was bound by an `:as` clause of a strictly earlier command. -/
def forwardRefOK (items : List Item) : Bool := fwdOKFrom [] [] items

/-- Count the commands of a given verb in a script. -/
def countVerb (v : String) (items : List Item) : Nat :=
  items.countP fun it =>
    match it with
    | Item.cmd c => c.verb == v
    | _ => false

def isCmdItem : Item → Bool
  | Item.cmd _ => true
  | _ => false

/-- The command sequence of a script: everything that is not a `;;` comment
or a blank line (comments carry no parsed meaning for the loader). -/
def commandItems (items : List Item) : List Item := items.filter isCmdItem

/-! ### Ownership chain resolver 1: trace_parent_chain
(src/scripts/gleif_allianz_chain.py lines 139-201) -/

/-- The record fetched for one LEI, together with the outcome of following
its direct-parent relationship link: `parentLink = none` models a record
without a `direct-parent` link; `some none` a link whose fetch failed, raised,
or yielded no/falsy parent LEI; `some (some p)` a link resolving to `p`
(`endNode.nodeID`). -/
structure ChainRecord where
  lei : String
  legal_name : String
  parentLink : Option (Option String)
deriving DecidableEq, Repr

/-- One chain element as assembled by `extract_entity_info` plus the
`info["depth"] = depth` assignment (identifying fields only; the remaining
extracted attributes do not influence control flow). -/
structure ChainEntityInfo where
  lei : String
  legal_name : String
  depth : Nat
deriving DecidableEq, Repr

/-- The diagnostics the two resolvers print while walking. -/
inductive Diag where
  | cycleDetected (lei : String)
  | couldNotFetch (lei : String)
  | apexReached (lei : String)
  | parentException (lei reason : String)
deriving DecidableEq, Repr

structure TraceResult where
  chain : List ChainEntityInfo
  diags : List Diag
  fetched : List String
deriving DecidableEq, Repr

/-- The `for depth in range(max_depth)` loop body of `trace_parent_chain`:
visited-set check first, then the entity fetch (logged in `fetched`), then
the parent step.  `fuel` is the number of loop iterations left, so the Python
loop bound is modelled exactly. -/
def tpcAux (g : String → Option ChainRecord) :
    Nat → Nat → List String → List ChainEntityInfo → List Diag → List String →
    String → TraceResult
  | 0, _, _, chain, diags, fetched, _ => ⟨chain, diags, fetched⟩
  | fuel + 1, depth, visited, chain, diags, fetched, current_lei =>
    if visited.contains current_lei then
      ⟨chain, diags ++ [Diag.cycleDetected current_lei], fetched⟩
    else
      match g current_lei with
      | none =>
        ⟨chain, diags ++ [Diag.couldNotFetch current_lei], fetched ++ [current_lei]⟩
      | some record =>
        let chain := chain ++ [⟨record.lei, record.legal_name, depth⟩]
        let fetched := fetched ++ [current_lei]
        let visited := current_lei :: visited
        match record.parentLink with
        | some (some parent_lei) =>
          if parent_lei != "" && parent_lei != current_lei then
            tpcAux g fuel (depth + 1) visited chain diags fetched parent_lei
          else ⟨chain, diags ++ [Diag.apexReached current_lei], fetched⟩
        | _ => ⟨chain, diags ++ [Diag.apexReached current_lei], fetched⟩

/-- `trace_parent_chain(start_lei, max_depth=10)`. -/
def trace_parent_chain (g : String → Option ChainRecord) (start_lei : String)
    (max_depth : Nat := 10) : TraceResult :=
  tpcAux g max_depth 0 [] [] [] [] start_lei

/-! ### Ownership chain resolver 2: GLEIFExtractor.trace_ownership_chain
(src/scripts/gleif_extract_allianz.py lines 143-223) -/

/-- The entity record fetched by `get_lei_record` (identifying fields). -/
structure ExtRecord where
  lei : String
  legal_name : String
deriving DecidableEq, Repr

/-- One chain element of the extractor, including the terminus marking
applied in the parent-exception branch. -/
structure ExtEntityInfo where
  lei : String
  legal_name : String
  ubo_terminus : Bool
  terminus_reason : Option String
deriving DecidableEq, Repr

/-- The extractor's four fetch endpoints as oracles.  `parentRel lei = some p`
models `get_parent_relationship` returning a record whose
`relationship.endNode.id` is the truthy `p`; `none` covers a failed fetch, a
404, or a record without a truthy parent LEI.  `directParent` likewise folds
`get_direct_parent` plus the truthiness test on the extracted LEI. -/
structure ExtGraph where
  records : String → Option ExtRecord
  parentRel : String → Option String
  parentException : String → Option String
  directParent : String → Option String

structure ExtTraceResult where
  chain : List ExtEntityInfo
  relationships : List OwnershipRel
  diags : List Diag
  fetched : List String
deriving DecidableEq, Repr

/-- The `while current_lei and current_lei not in visited` loop of
`trace_ownership_chain`.  The Python loop carries no depth bound, so the
model runs on explicit fuel and returns `none` when the fuel is exhausted
before the loop exits (the real code would simply keep iterating). -/
def tocAux (g : ExtGraph) :
    Nat → List String → List ExtEntityInfo → List OwnershipRel → List Diag →
    List String → String → Option ExtTraceResult
  | 0, _, _, _, _, _, _ => none
  | fuel + 1, visited, chain, rels, diags, fetched, current_lei =>
    if current_lei == "" || visited.contains current_lei then
      some ⟨chain, rels, diags, fetched⟩
    else
      let visited := current_lei :: visited
      let fetched := fetched ++ [current_lei]
      match g.records current_lei with
      | none => some ⟨chain, rels, diags ++ [Diag.couldNotFetch current_lei], fetched⟩
      | some record =>
        match g.parentRel current_lei with
        | some parent_lei =>
          tocAux g fuel visited (chain ++ [⟨record.lei, record.legal_name, false, none⟩])
            (rels ++ [⟨current_lei, parent_lei⟩]) diags fetched parent_lei
        | none =>
          match g.parentException current_lei with
          | some reason =>
            some ⟨chain ++ [⟨record.lei, record.legal_name, true, some reason⟩], rels,
                  diags ++ [Diag.parentException current_lei reason,
                            Diag.apexReached current_lei], fetched⟩
          | none =>
            match g.directParent current_lei with
            | some parent_lei =>
              tocAux g fuel visited
                (chain ++ [⟨record.lei, record.legal_name, false, none⟩])
                rels diags fetched parent_lei
            | none =>
              some ⟨chain ++ [⟨record.lei, record.legal_name, false, none⟩], rels,
                    diags ++ [Diag.apexReached current_lei], fetched⟩

/-- `trace_ownership_chain(start_lei)` run for at most `fuel` iterations. -/
def trace_ownership_chain (g : ExtGraph) (start_lei : String) (fuel : Nat) :
    Option ExtTraceResult :=
  tocAux g fuel [] [] [] [] [] start_lei

/-! ### The CSV converter emitter: generate_dsl
(src/data/seed/allianzgi/csv_to_dsl.py lines 275-347) -/

/-- The `ShareClass` dataclass of csv_to_dsl.py. -/
structure ShareClass where
  fund_name : String
  share_class_name : String
  isin : String
  currency : String
  asset_class : String
  share_class_type : String
  distribution_type : String
  is_hedged : Bool
  sfdr_category : String
deriving DecidableEq, Repr

/-- Lines 284-289: group share classes by sub-fund name, keeping first-seen
key order and per-key input order (Python dict insertion order). -/
def groupSubfunds (share_classes : List ShareClass) :
    List (String × List ShareClass) :=
  share_classes.foldl (fun acc sc =>
    if acc.any (fun p => p.1 == sc.fund_name) then
      acc.map fun p => if p.1 == sc.fund_name then (p.1, p.2 ++ [sc]) else p
    else acc ++ [(sc.fund_name, [sc])]) []

/-- Line 310-313: `max(set(currencies), key=currencies.count)` — the currency
with the greatest multiplicity.  Python iterates a hash set here, so its
tiebreak between equally frequent currencies is unspecified; the model
resolves ties to the earliest occurrence, which agrees with Python whenever
the maximum is unique. -/
def mostCommonCurrency (currencies : List String) : String :=
  (currencies.foldl (fun best c =>
    match best with
    | none => some c
    | some b => if currencies.count c > currencies.count b then some c else best)
    none).getD "EUR"

/-- One share-class command of lines 325-336. -/
def csvShareClassItem (var_name : String) (sc : ShareClass) : Item :=
  Item.cmd
    { verb := "fund.create-share-class",
      args := [("name", sc.share_class_name),
               ("share-class-type", sc.share_class_type),
               ("distribution-type", sc.distribution_type),
               ("currency", sc.currency)] ++
              (if sc.is_hedged then [("hedged", "true")] else []) ++
              [("isin", sc.isin)],
      refs := ["sf_" ++ var_name], binds := some ("sc_" ++ sanitize_var_name sc.isin) }

/-- One sub-fund block of lines 306-338: the sub-fund command followed by a
command for EVERY attached share class — no cap and no truncation marker. -/
def csvSubfundItems (umbrella_name cbu_name : String)
    (p : String × List ShareClass) : List Item :=
  let subfund_name := p.1
  let scs := p.2
  let var_name := sanitize_var_name subfund_name
  let currencies := (scs.filter fun sc => !sc.is_hedged).map (·.currency)
  let base_currency := if currencies ≠ [] then mostCommonCurrency currencies else "EUR"
  let subfundCmd : Cmd :=
    { verb := "fund.create-subfund",
      args := [("name", subfund_name), ("umbrella-id", umbrella_name),
               ("base-currency", base_currency), ("cbu-id", cbu_name)],
      refs := [], binds := some ("sf_" ++ var_name) }
  [Item.comment (";; Sub-fund: " ++ subfund_name ++ " (" ++ toString scs.length ++
                 " share classes)"),
   Item.cmd subfundCmd] ++
  scs.map (csvShareClassItem var_name) ++
  [Item.blank]

/-- `generate_dsl` from csv_to_dsl.py lines 275-347 (header comments, one
block per sub-fund, summary comments). -/
def generate_dsl (share_classes : List ShareClass)
    (jurisdiction manco_code : String)
    (umbrella_name : String := "Allianz Global Investors Fund")
    (cbu_name : String := "Allianz Global Investors Group") : List Item :=
  let subfunds := groupSubfunds share_classes
  [Item.comment (";; AllianzGI " ++ jurisdiction ++ " Fund Load - Full Export"),
   Item.comment ";; Generated from regulatory XLSX export",
   Item.comment (";; ManCo: " ++ manco_code),
   Item.comment (";; Sub-funds: " ++ toString subfunds.length),
   Item.comment (";; Share classes: " ++ toString share_classes.length),
   Item.comment ruleComment,
   Item.blank,
   Item.comment ";; PREREQUISITE: Run 03_load_allianzgi.dsl first to create:",
   Item.comment (";;   CBU: " ++ cbu_name),
   Item.comment (";;   Umbrella: " ++ umbrella_name),
   Item.comment ruleComment,
   Item.blank] ++
  subfunds.foldl (fun acc p => acc ++ csvSubfundItems umbrella_name cbu_name p) [] ++
  [Item.comment ruleComment,
   Item.comment (";; SUMMARY: " ++ toString subfunds.length ++ " sub-funds, " ++
                 toString share_classes.length ++ " share classes"),
   Item.comment ruleComment]

/-! ### Concrete instances used by the witnesses and counterexamples -/

/-- A synthetic three-node parent cycle A→B→C→A for `trace_parent_chain`. -/
def cycleChainGraph : String → Option ChainRecord := fun l =>
  if l == "A" then some ⟨"A", "Entity A", some (some "B")⟩
  else if l == "B" then some ⟨"B", "Entity B", some (some "C")⟩
  else if l == "C" then some ⟨"C", "Entity C", some (some "A")⟩
  else none

/-- The same synthetic cycle for `trace_ownership_chain`. -/
def cycleExtGraph : ExtGraph :=
  { records := fun l =>
      if l == "A" then some ⟨"A", "Entity A"⟩
      else if l == "B" then some ⟨"B", "Entity B"⟩
      else if l == "C" then some ⟨"C", "Entity C"⟩
      else none,
    parentRel := fun l =>
      if l == "A" then some "B"
      else if l == "B" then some "C"
      else if l == "C" then some "A"
      else none,
    parentException := fun _ => none,
    directParent := fun _ => none }

/-- An 11-entity path N0→N1→…→N10 of pairwise-distinct identifiers with an
apex at N10: every fetch succeeds and no cycle ever occurs. -/
def pathExtGraph : ExtGraph :=
  { records := fun l =>
      if ["N0", "N1", "N2", "N3", "N4", "N5", "N6", "N7", "N8", "N9", "N10"].contains l
      then some ⟨l, l⟩ else none,
    parentRel := fun l =>
      if l == "N0" then some "N1" else if l == "N1" then some "N2"
      else if l == "N2" then some "N3" else if l == "N3" then some "N4"
      else if l == "N4" then some "N5" else if l == "N5" then some "N6"
      else if l == "N6" then some "N7" else if l == "N7" then some "N8"
      else if l == "N8" then some "N9" else if l == "N9" then some "N10"
      else none,
    parentException := fun _ => none,
    directParent := fun _ => none }

/-- A synthetic share-class row (csv_to_dsl.py `ShareClass`). -/
def sampleShareClass : ShareClass :=
  ⟨"F", "F - A", "LU0001", "EUR", "EQUITY", "RETAIL", "ACC", false, ""⟩

/-- A synthetic share-class object of the comprehensive-JSON shape. -/
def sampleShareClassJson : ShareClassJson := ⟨"LU0001", "F - A", "EUR"⟩

/-- A fund record carrying 75 share classes. -/
def fund75 : FundJson := ⟨"F", "LU", "", List.replicate 75 sampleShareClassJson⟩

/-- A GLEIF document with one chain entity and one ownership edge whose
parent LEI is absent from the entity set (a dangling edge). -/
def danglingGleif : Gleif :=
  ⟨[⟨"LEIA", "Alpha Corp", some "DE", "", false⟩], [], [⟨"LEIA", "MISSING"⟩]⟩

/-- An oracle on which every fetch fails. -/
def failingChainGraph : String → Option ChainRecord := fun _ => none

/-- An extractor oracle on which every fetch fails. -/
def failingExtGraph : ExtGraph :=
  { records := fun _ => none, parentRel := fun _ => none,
    parentException := fun _ => none, directParent := fun _ => none }

/-- An extractor oracle on which every `get_parent_relationship` fetch fails
(mapped to `None` by `GLEIFExtractor.fetch`), there is no reporting
exception, and the `get_direct_parent` fallback succeeds for A with parent
B: the walk does not stop at A. -/
def fallbackExtGraph : ExtGraph :=
  { records := fun l =>
      if l == "A" || l == "B" then some ⟨l, "Entity " ++ l⟩ else none,
    parentRel := fun _ => none,
    parentException := fun _ => none,
    directParent := fun l => if l == "A" then some "B" else none }

/-! ## Helper lemmas -/

theorem strContains_iff {l : List String} {a : String} :
    l.contains a = true ↔ a ∈ l := List.elem_iff

theorem strContains_append (a : String) (l₁ l₂ : List String) :
    (l₁ ++ l₂).contains a = (l₁.contains a || l₂.contains a) := by
  induction l₁ with
  | nil => simp
  | cons b bs ih => simp [List.contains_cons, ih, Bool.or_assoc]

/-! ## C2: the binding allocator -/

/-- C2 counterexample: the allocator is not injective across distinct
identifiers — the distinct names "a b" and "a-b" receive the identical
binding `a_b`; `slugify` contains no collision detection at all. -/
theorem C2_counterexample_binding_collision :
    slugify "a b" = slugify "a-b" ∧ ("a b" : String) ≠ "a-b" :=
  ⟨by decide, by decide⟩

/-- C2 (amended): the allocator is a deterministic function of the
normalized slug core alone.  For any two input texts whose cores are
nonempty and within the 30-character cap, the allocated bindings are equal
exactly when the cores are equal — so equal-core inputs with distinct
identifiers collide, and nothing else collides in this regime. -/
theorem C2_binding_core_characterization (s₁ s₂ : String)
    (h₁ : slugCore s₁ ≠ "") (h₂ : slugCore s₂ ≠ "")
    (h₃ : (slugCore s₁).length ≤ 30) (h₄ : (slugCore s₂).length ≤ 30) :
    slugify s₁ = slugify s₂ ↔ slugCore s₁ = slugCore s₂ := by
  have e₁ : slugify s₁ = slugCore s₁ := by
    simp only [slugify]
    rw [if_neg h₁, if_neg (by omega : ¬ (slugCore s₁).length > 30)]
  have e₂ : slugify s₂ = slugCore s₂ := by
    simp only [slugify]
    rw [if_neg h₂, if_neg (by omega : ¬ (slugCore s₂).length > 30)]
  rw [e₁, e₂]

/-- C2 witness: the characterization applied to the concrete colliding pair. -/
theorem C2_binding_core_characterization_witness :
    slugCore "a b" ≠ "" ∧ slugCore "a-b" ≠ "" ∧
    (slugCore "a b").length ≤ 30 ∧ (slugCore "a-b").length ≤ 30 ∧
    (slugify "a b" = slugify "a-b" ↔ slugCore "a b" = slugCore "a-b") :=
  ⟨by decide, by decide, by decide, by decide,
   C2_binding_core_characterization "a b" "a-b" (by decide) (by decide)
     (by decide) (by decide)⟩

/-! ## C10: the share-class classifier -/

/-- C10: `parse_share_class_type` is total with a fixed codomain — the first
component is always "INSTITUTIONAL" or "RETAIL", the second always "DIST" or
"ACC" (the third is a `Bool` by type), and a designation matching no
institutional, distribution, or hedge marker yields exactly
`("RETAIL", "ACC", false)`. -/
theorem C10_share_class_classifier_total (name : String) :
    ((parse_share_class_type name).1 = "INSTITUTIONAL" ∨
     (parse_share_class_type name).1 = "RETAIL") ∧
    ((parse_share_class_type name).2.1 = "DIST" ∨
     (parse_share_class_type name).2.1 = "ACC") ∧
    (instMarker (asciiUpper name) = false → distMarker (asciiUpper name) = false →
     hedgeMarker (asciiUpper name) = false →
     parse_share_class_type name = ("RETAIL", "ACC", false)) := by
  refine ⟨?_, ?_, ?_⟩
  · by_cases h : instMarker (asciiUpper name) = true <;>
      simp [parse_share_class_type, h]
  · by_cases h : distMarker (asciiUpper name) = true <;>
      simp [parse_share_class_type, h]
  · intro h₁ h₂ h₃
    simp [parse_share_class_type, h₁, h₂, h₃]

/-- C10 witness: the classifier evaluated at the markerless designation
"XYZ". -/
theorem C10_share_class_classifier_total_witness :
    instMarker (asciiUpper "XYZ") = false ∧ distMarker (asciiUpper "XYZ") = false ∧
    hedgeMarker (asciiUpper "XYZ") = false ∧
    parse_share_class_type "XYZ" = ("RETAIL", "ACC", false) :=
  ⟨by decide, by decide, by decide,
   (C10_share_class_classifier_total "XYZ").2.2 (by decide) (by decide) (by decide)⟩

/-! ## C1 counterexample -/

/-- C1 counterexample: with an absent GLEIF document and no funds, the
compiled script still emits `(cbu.assign-role ... :entity-id
@allianz_global_investors_gmbh ...)` even though no earlier command ever
bound `@allianz_global_investors_gmbh`, so the forward-reference invariant
fails on this input. -/
theorem C1_counterexample_forward_reference :
    forwardRefOK (generateFullDsl none [] "2026-01-01T00:00:00") = false := by
  decide

/-! ## C4: the depth guard -/

theorem tpcAux_chain_length (g : String → Option ChainRecord) :
    ∀ (fuel depth : Nat) (visited : List String) (chain : List ChainEntityInfo)
      (diags : List Diag) (fetched : List String) (cur : String),
      (tpcAux g fuel depth visited chain diags fetched cur).chain.length ≤
        chain.length + fuel := by
  intro fuel
  induction fuel with
  | zero =>
    intro depth visited chain diags fetched cur
    simp [tpcAux]
  | succ n ih =>
    intro depth visited chain diags fetched cur
    simp only [tpcAux]
    split
    · simp
    · split
      · simp
      · split
        · split
          · refine le_trans (ih _ _ _ _ _ _) ?_
            simp only [List.length_append, List.length_cons, List.length_nil]
            omega
          · simp only [List.length_append, List.length_cons, List.length_nil]
            omega
        · simp only [List.length_append, List.length_cons, List.length_nil]
          omega

/-- C4 counterexample: on an 11-entity path of pairwise-distinct parent
identifiers, `trace_ownership_chain` walks all 11 nodes and returns a chain
of length 11 — there is no maximum-depth guard in this resolver, so the
"chain length at most 10 for every input graph" claim fails. -/
theorem C4_counterexample_unbounded_walk :
    (trace_ownership_chain pathExtGraph "N0" 100).map (fun r => r.chain.length) =
      some 11 := by
  decide

/-- C4 (amended): the maximum-depth guard exists only in
`trace_parent_chain`, whose `for depth in range(max_depth)` loop bounds the
returned chain by the default `max_depth = 10` independently of the cycle
check; `trace_ownership_chain`'s `while` loop carries no such bound and is
limited only by the visited set. -/
theorem C4_depth_guard_amended (g : String → Option ChainRecord) (start : String) :
    (trace_parent_chain g start).chain.length ≤ 10 := by
  have h := tpcAux_chain_length g 10 0 [] [] [] [] start
  simpa [trace_parent_chain] using h

/-! ## C5 counterexample -/

/-- C5 counterexample: `generate_dsl` in csv_to_dsl.py applies no cap at
all — a sub-fund carrying 75 share classes emits 75 share-class commands
(not 50, and no truncation note), so the claim fails for this emitter. -/
theorem C5_counterexample_csv_no_cap :
    countVerb "fund.create-share-class"
      (generate_dsl (List.replicate 75 sampleShareClass) "LU" "AGI") = 75 := by
  decide

/-! ## C6 counterexample -/

/-- C6 counterexample: a display name containing a quote and an embedded
newline does not round-trip — `escape` rewrites the newline to a space (and
strips outer whitespace), so re-parsing the emitted literal yields
`"a\" b"`, not the original name. -/
theorem C6_counterexample_newline_escape :
    unescape (escape "a\"\nb") ≠ "a\"\nb" := by
  decide

/-! ## C8 counterexample -/

/-- C8 counterexample: a GLEIF document whose only ownership edge names a
parent LEI absent from the entity set yields zero relationship commands but
ALSO zero diagnostic entries — the dangling edge is dropped silently, not
logged, so the "exactly one diagnostic entry" claim fails. -/
theorem C8_counterexample_silent_edge_drop :
    countVerb "ubo.add-ownership" (generateFullDsl (some danglingGleif) [] "t0") = 0 ∧
    generateFullDslDiags (some danglingGleif) [] = [] :=
  ⟨by decide, rfl⟩

/-! ## C3 counterexample -/

/-- C3 counterexample: on the synthetic cycle A→B→C→A,
`trace_ownership_chain` does return exactly the chain [A, B, C] without
re-appending A, but its `while` loop exits silently — the diagnostics list
is empty, so no cycle diagnostic is emitted, contradicting the claim for
this resolver. -/
theorem C3_counterexample_ownership_cycle_silent :
    (trace_ownership_chain cycleExtGraph "A" 10).map
      (fun r => (r.chain.map (fun e => e.lei), r.diags)) =
      some (["A", "B", "C"], []) := by
  decide

/-! ## C7: fetch failures terminate the walk with the partial chain -/

theorem tpcAux_fetched_nodup (g : String → Option ChainRecord) :
    ∀ (fuel depth : Nat) (visited : List String) (chain : List ChainEntityInfo)
      (diags : List Diag) (fetched : List String) (cur : String),
      fetched.Nodup → (∀ x ∈ fetched, x ∈ visited) →
      (tpcAux g fuel depth visited chain diags fetched cur).fetched.Nodup := by
  intro fuel
  induction fuel with
  | zero =>
    intro depth visited chain diags fetched cur hnd _
    simpa [tpcAux] using hnd
  | succ n ih =>
    intro depth visited chain diags fetched cur hnd hsub
    simp only [tpcAux]
    split
    · simpa using hnd
    · rename_i hv
      have hcur : cur ∉ fetched := fun hmem =>
        hv (strContains_iff.mpr (hsub cur hmem))
      have hnd' : (fetched ++ [cur]).Nodup := by
        simp [List.nodup_append, hnd, hcur]
      have hsub' : ∀ x ∈ fetched ++ [cur], x ∈ cur :: visited := by
        intro x hx
        rcases List.mem_append.mp hx with h | h
        · exact List.mem_cons_of_mem _ (hsub x h)
        · simp only [List.mem_singleton] at h
          exact h ▸ List.mem_cons_self _ _
      split
      · simpa using hnd'
      · split
        · split
          · exact ih _ _ _ _ _ _ hnd' hsub'
          · simpa using hnd'
        · simpa using hnd'

theorem tocAux_fetched_nodup (g : ExtGraph) :
    ∀ (fuel : Nat) (visited : List String) (chain : List ExtEntityInfo)
      (rels : List OwnershipRel) (diags : List Diag) (fetched : List String)
      (cur : String) (res : ExtTraceResult),
      fetched.Nodup → (∀ x ∈ fetched, x ∈ visited) →
      tocAux g fuel visited chain rels diags fetched cur = some res →
      res.fetched.Nodup := by
  intro fuel
  induction fuel with
  | zero =>
    intro visited chain rels diags fetched cur res _ _ h
    exact absurd h (by simp [tocAux])
  | succ n ih =>
    intro visited chain rels diags fetched cur res hnd hsub h
    simp only [tocAux] at h
    split at h
    · cases h
      simpa using hnd
    · rename_i hv
      have hvis : cur ∉ visited := by
        intro hmem
        exact hv (by rw [strContains_iff.mpr hmem, Bool.or_true])
      have hcur : cur ∉ fetched := fun hmem => hvis (hsub cur hmem)
      have hnd' : (fetched ++ [cur]).Nodup := by
        simp [List.nodup_append, hnd, hcur]
      have hsub' : ∀ x ∈ fetched ++ [cur], x ∈ cur :: visited := by
        intro x hx
        rcases List.mem_append.mp hx with hmem | hmem
        · exact List.mem_cons_of_mem _ (hsub x hmem)
        · simp only [List.mem_singleton] at hmem
          exact hmem ▸ List.mem_cons_self _ _
      split at h
      · cases h
        simpa using hnd'
      · split at h
        · exact ih _ _ _ _ _ _ res hnd' hsub' h
        · split at h
          · cases h
            simpa using hnd'
          · split at h
            · exact ih _ _ _ _ _ _ res hnd' hsub' h
            · cases h
              simpa using hnd'

/-- C7 counterexample: a fetch failure does NOT always terminate the walk.
On an oracle where every `get_parent_relationship` fetch fails (None) but
the `get_direct_parent` fallback resolves A's parent to B,
`trace_ownership_chain` continues past A and returns a two-entity chain —
the claim's "terminates the walk at the last successfully resolved entity"
would require the chain to stop at A. -/
theorem C7_counterexample_parent_fetch_fallback :
    trace_ownership_chain fallbackExtGraph "A" 10 =
      some ⟨[⟨"A", "Entity A", false, none⟩, ⟨"B", "Entity B", false, none⟩],
            [], [Diag.apexReached "B"], ["A", "B"]⟩ := by
  decide

/-- C7 (amended): a failed ENTITY-RECORD fetch (network error, 4xx/5xx, or
missing data — all mapped to `None` by the fetch helpers' `RequestException`
handlers, so nothing raises past the resolver boundary) terminates the walk
at the last successfully resolved entity in both resolvers, returning the
partial chain accumulated so far; and neither resolver ever fetches the
same identifier's record twice (no retry inside resolution).  A failed
parent-relationship fetch, however, does not terminate
`trace_ownership_chain`: the resolver falls back to the reporting-exception
and direct-parent endpoints and continues the walk when the direct-parent
fallback yields a parent (third clause). -/
theorem C7_fetch_failure_partial_chain :
    (∀ (g : String → Option ChainRecord) (fuel depth : Nat) (visited : List String)
       (chain : List ChainEntityInfo) (diags : List Diag) (fetched : List String)
       (cur : String), visited.contains cur = false → g cur = none →
       tpcAux g (fuel + 1) depth visited chain diags fetched cur =
         ⟨chain, diags ++ [Diag.couldNotFetch cur], fetched ++ [cur]⟩) ∧
    (∀ (g : ExtGraph) (fuel : Nat) (visited : List String)
       (chain : List ExtEntityInfo) (rels : List OwnershipRel) (diags : List Diag)
       (fetched : List String) (cur : String),
       (cur == "") = false → visited.contains cur = false → g.records cur = none →
       tocAux g (fuel + 1) visited chain rels diags fetched cur =
         some ⟨chain, rels, diags ++ [Diag.couldNotFetch cur], fetched ++ [cur]⟩) ∧
    (∀ (g : ExtGraph) (fuel : Nat) (visited : List String)
       (chain : List ExtEntityInfo) (rels : List OwnershipRel) (diags : List Diag)
       (fetched : List String) (cur : String) (record : ExtRecord) (p : String),
       (cur == "") = false → visited.contains cur = false →
       g.records cur = some record → g.parentRel cur = none →
       g.parentException cur = none → g.directParent cur = some p →
       tocAux g (fuel + 1) visited chain rels diags fetched cur =
         tocAux g fuel (cur :: visited)
           (chain ++ [⟨record.lei, record.legal_name, false, none⟩]) rels diags
           (fetched ++ [cur]) p) ∧
    (∀ (g : String → Option ChainRecord) (start : String) (max_depth : Nat),
       (trace_parent_chain g start max_depth).fetched.Nodup) ∧
    (∀ (g : ExtGraph) (start : String) (fuel : Nat) (res : ExtTraceResult),
       trace_ownership_chain g start fuel = some res → res.fetched.Nodup) := by
  refine ⟨?_, ?_, ?_, ?_, ?_⟩
  · intro g fuel depth visited chain diags fetched cur hv hg
    have hnm : cur ∉ visited := fun hm => by
      rw [strContains_iff.mpr hm] at hv; exact Bool.noConfusion hv
    simp [tpcAux, hnm, hg]
  · intro g fuel visited chain rels diags fetched cur hne hv hg
    have hnm : cur ∉ visited := fun hm => by
      rw [strContains_iff.mpr hm] at hv; exact Bool.noConfusion hv
    have hne' : ¬ cur = "" := by simpa using hne
    simp [tocAux, hne', hnm, hg]
  · intro g fuel visited chain rels diags fetched cur record p hne hv hg hr hexc hd
    have hnm : cur ∉ visited := fun hm => by
      rw [strContains_iff.mpr hm] at hv; exact Bool.noConfusion hv
    have hne' : ¬ cur = "" := by simpa using hne
    simp [tocAux, hne', hnm, hg, hr, hexc, hd]
  · intro g start max_depth
    exact tpcAux_fetched_nodup g max_depth 0 [] [] [] [] start List.nodup_nil
      (by intro x hx; cases hx)
  · intro g start fuel res h
    exact tocAux_fetched_nodup g fuel [] [] [] [] [] start res List.nodup_nil
      (by intro x hx; cases hx) h

/-- C7 witness: the record-failure clauses applied to an oracle on which
every fetch fails, the fallback-continuation clause applied to the
fallback oracle at A, and the no-retry clauses applied to the synthetic
cycle graphs. -/
theorem C7_fetch_failure_partial_chain_witness :
    tpcAux failingChainGraph 1 0 [] [] [] [] "X" =
      ⟨[], [Diag.couldNotFetch "X"], ["X"]⟩ ∧
    tocAux failingExtGraph 1 [] [] [] [] [] "X" =
      some ⟨[], [], [Diag.couldNotFetch "X"], ["X"]⟩ ∧
    tocAux fallbackExtGraph 2 [] [] [] [] [] "A" =
      tocAux fallbackExtGraph 1 ["A"] [⟨"A", "Entity A", false, none⟩] [] [] ["A"] "B" ∧
    (trace_parent_chain cycleChainGraph "A").fetched.Nodup ∧
    (∀ res, trace_ownership_chain cycleExtGraph "A" 10 = some res →
       res.fetched.Nodup) :=
  ⟨C7_fetch_failure_partial_chain.1 failingChainGraph 0 0 [] [] [] [] "X" rfl rfl,
   C7_fetch_failure_partial_chain.2.1 failingExtGraph 0 [] [] [] [] [] "X"
     (by decide) rfl rfl,
   C7_fetch_failure_partial_chain.2.2.1 fallbackExtGraph 1 [] [] [] [] [] "A"
     ⟨"A", "Entity A"⟩ "B" (by decide) rfl rfl rfl rfl rfl,
   C7_fetch_failure_partial_chain.2.2.2.1 cycleChainGraph "A" 10,
   fun res h => C7_fetch_failure_partial_chain.2.2.2.2 cycleExtGraph "A" 10 res h⟩

/-! ## C9: determinism of the compile -/

theorem commandItems_headerItems (gleif : Option Gleif) (funds : List FundJson)
    (now : String) : commandItems (headerItems gleif funds now) = [] := by
  simp [headerItems, commandItems, isCmdItem]

/-- C9: compiling the same normalized input twice is deterministic — the two
runs differ at most in the `datetime.now()` timestamp, which only reaches a
header comment line, so the emitted command sequences (including every `:as`
binding and every reference) are identical; every traversal in the compile
is over ordered lists, and sets/dicts are used only for membership and keyed
lookup. -/
theorem C9_compile_deterministic (gleif : Option Gleif) (funds : List FundJson)
    (t₁ t₂ : String) :
    commandItems (generateFullDsl gleif funds t₁) =
      commandItems (generateFullDsl gleif funds t₂) := by
  unfold generateFullDsl
  show (headerItems gleif funds t₁ ++ _).filter isCmdItem =
    (headerItems gleif funds t₂ ++ _).filter isCmdItem
  rw [List.filter_append, List.filter_append]
  have h₁ := commandItems_headerItems gleif funds t₁
  have h₂ := commandItems_headerItems gleif funds t₂
  unfold commandItems at h₁ h₂
  rw [h₁, h₂]

/-! ## C3 amended: cycle termination in both resolvers -/

/-- C3 (amended): for any graphs in which the parent lookups of A, B, C form
the cycle A→B→C→A (A, B, C pairwise distinct and nonempty), both resolvers
return exactly the chain [A, B, C], never re-append A, and fetch each
identifier exactly once; but only `trace_parent_chain` emits a cycle
diagnostic — `trace_ownership_chain`'s `while` loop exits silently with an
empty diagnostics list. -/
theorem C3_cycle_termination_amended
    (A B C : String) (g : String → Option ChainRecord) (g2 : ExtGraph)
    (rA rB rC : ChainRecord) (eA eB eC : ExtRecord)
    (hAB : A ≠ B) (hAC : A ≠ C) (hBC : B ≠ C)
    (hA : A ≠ "") (hB : B ≠ "") (hC : C ≠ "")
    (hgA : g A = some rA) (hgB : g B = some rB) (hgC : g C = some rC)
    (hpA : rA.parentLink = some (some B)) (hpB : rB.parentLink = some (some C))
    (hpC : rC.parentLink = some (some A))
    (h2A : g2.records A = some eA) (h2B : g2.records B = some eB)
    (h2C : g2.records C = some eC)
    (hr2A : g2.parentRel A = some B) (hr2B : g2.parentRel B = some C)
    (hr2C : g2.parentRel C = some A) (fuel : Nat) :
    trace_parent_chain g A =
      ⟨[⟨rA.lei, rA.legal_name, 0⟩, ⟨rB.lei, rB.legal_name, 1⟩,
        ⟨rC.lei, rC.legal_name, 2⟩],
       [Diag.cycleDetected A], [A, B, C]⟩ ∧
    trace_ownership_chain g2 A (fuel + 4) =
      some ⟨[⟨eA.lei, eA.legal_name, false, none⟩, ⟨eB.lei, eB.legal_name, false, none⟩,
             ⟨eC.lei, eC.legal_name, false, none⟩],
            [⟨A, B⟩, ⟨B, C⟩, ⟨C, A⟩], [], [A, B, C]⟩ := by
  have eBA : (B == A) = false := beq_eq_false_iff_ne.mpr (Ne.symm hAB)
  have eCA : (C == A) = false := beq_eq_false_iff_ne.mpr (Ne.symm hAC)
  have eCB : (C == B) = false := beq_eq_false_iff_ne.mpr (Ne.symm hBC)
  have eAA : (A == A) = true := beq_self_eq_true A
  have eA0 : (A == "") = false := beq_eq_false_iff_ne.mpr hA
  have eB0 : (B == "") = false := beq_eq_false_iff_ne.mpr hB
  have eC0 : (C == "") = false := beq_eq_false_iff_ne.mpr hC
  have eAB : (B != A) = true := by simp [bne, eBA]
  have eBC : (C != B) = true := by simp [bne, eCB]
  have nA0 : (A != "") = true := by simp [bne, eA0]
  have nB0 : (B != "") = true := by simp [bne, eB0]
  have nC0 : (C != "") = true := by simp [bne, eC0]
  constructor
  · simp [trace_parent_chain, tpcAux, hgA, hgB, hgC, hpA, hpB, hpC,
          List.contains_cons, eBA, eCA, eCB, eAA, eAB, eBC, nB0, nC0, nA0,
          Ne.symm hAB, Ne.symm hAC, Ne.symm hBC, hAB, hAC, hBC]
  · show tocAux g2 (fuel + 4) [] [] [] [] [] A = _
    simp [tocAux, h2A, h2B, h2C, hr2A, hr2B, hr2C,
          List.contains_cons, eBA, eCA, eCB, eAA, eA0, eB0, eC0,
          Ne.symm hAB, Ne.symm hAC, Ne.symm hBC, hAB, hAC, hBC, hA, hB, hC]

/-- C3 witness: the amended theorem applied to the concrete synthetic
three-node cycle. -/
theorem C3_cycle_termination_amended_witness :
    trace_parent_chain cycleChainGraph "A" =
      ⟨[⟨"A", "Entity A", 0⟩, ⟨"B", "Entity B", 1⟩, ⟨"C", "Entity C", 2⟩],
       [Diag.cycleDetected "A"], ["A", "B", "C"]⟩ ∧
    trace_ownership_chain cycleExtGraph "A" 10 =
      some ⟨[⟨"A", "Entity A", false, none⟩, ⟨"B", "Entity B", false, none⟩,
             ⟨"C", "Entity C", false, none⟩],
            [⟨"A", "B"⟩, ⟨"B", "C"⟩, ⟨"C", "A"⟩], [], ["A", "B", "C"]⟩ :=
  C3_cycle_termination_amended "A" "B" "C" cycleChainGraph cycleExtGraph
    ⟨"A", "Entity A", some (some "B")⟩ ⟨"B", "Entity B", some (some "C")⟩
    ⟨"C", "Entity C", some (some "A")⟩ ⟨"A", "Entity A"⟩ ⟨"B", "Entity B"⟩
    ⟨"C", "Entity C"⟩
    (by decide) (by decide) (by decide) (by decide) (by decide) (by decide)
    rfl rfl rfl rfl rfl rfl rfl rfl rfl rfl rfl rfl 6

/-! ## C6 amended: the escaping round-trip -/

theorem unescapeAux_cons_of_ne (c : Char) (rest : List Char)
    (h : (c == '\\') = false) :
    unescapeAux (c :: rest) = c :: unescapeAux rest := by
  cases rest with
  | nil => rfl
  | cons d r => simp [unescapeAux, h]

theorem unescapeAux_backslash (rest : List Char)
    (h : ∀ d r, rest = d :: r → (d == '"') = false) :
    unescapeAux ('\\' :: rest) = '\\' :: unescapeAux rest := by
  cases rest with
  | nil => rfl
  | cons d r => simp [unescapeAux, h d r rfl]

theorem escapeQuote_head_ne (t : List Char) :
    ∀ d r, escapeQuote t = d :: r → (d == '"') = false := by
  intro d r h
  cases t with
  | nil => simp [escapeQuote] at h
  | cons e t' =>
    by_cases he : e = '"'
    · subst he
      simp [escapeQuote] at h
      obtain ⟨hd, _⟩ := h
      subst hd
      decide
    · simp [escapeQuote, he] at h
      obtain ⟨hd, _⟩ := h
      subst hd
      exact beq_eq_false_iff_ne.mpr he

theorem unescape_escapeQuote (l : List Char) :
    unescapeAux (escapeQuote l) = l := by
  induction l with
  | nil => rfl
  | cons c t ih =>
    by_cases hc : c = '"'
    · subst hc
      have he : escapeQuote ('"' :: t) = '\\' :: '"' :: escapeQuote t := by
        simp [escapeQuote]
      rw [he]
      have hu : unescapeAux ('\\' :: '"' :: escapeQuote t) =
          '"' :: unescapeAux (escapeQuote t) := by
        simp [unescapeAux]
      rw [hu, ih]
    · have he : escapeQuote (c :: t) = c :: escapeQuote t := by
        simp [escapeQuote, hc]
      rw [he]
      by_cases hbs : c = '\\'
      · subst hbs
        rw [unescapeAux_backslash _ (escapeQuote_head_ne t), ih]
      · rw [unescapeAux_cons_of_ne c _ (beq_eq_false_iff_ne.mpr hbs), ih]

theorem mapNL_escapeQuote (l : List Char) (h : '\n' ∉ l) :
    (escapeQuote l).map nlToSpace = escapeQuote l := by
  induction l with
  | nil => rfl
  | cons c t ih =>
    have hc : c ≠ '\n' := fun he => h (he ▸ List.mem_cons_self _ _)
    have ht : '\n' ∉ t := fun hm => h (List.mem_cons_of_mem _ hm)
    by_cases hq : c = '"'
    · subst hq
      have he : escapeQuote ('"' :: t) = '\\' :: '"' :: escapeQuote t := by
        simp [escapeQuote]
      rw [he]
      have h1 : nlToSpace '\\' = '\\' := by decide
      have h2 : nlToSpace '"' = '"' := by decide
      simp only [List.map_cons, ih ht, h1, h2]
    · have he : escapeQuote (c :: t) = c :: escapeQuote t := by
        simp [escapeQuote, hq]
      rw [he]
      simp only [List.map_cons, ih ht]
      have : nlToSpace c = c := by
        simp [nlToSpace, beq_eq_false_iff_ne.mpr (Ne.symm (Ne.symm hc))]
      rw [this]

theorem dropWhile_eq_self_of_head (l : List Char)
    (h : ∀ c ∈ l.head?, isPyWS c = false) : l.dropWhile isPyWS = l := by
  cases l with
  | nil => rfl
  | cons a t =>
    have ha : isPyWS a = false := h a rfl
    simp [List.dropWhile_cons, ha]

theorem stripWS_eq_self (l : List Char)
    (hhead : ∀ c ∈ l.head?, isPyWS c = false)
    (hlast : ∀ c ∈ l.getLast?, isPyWS c = false) : stripWS l = l := by
  unfold stripWS
  rw [dropWhile_eq_self_of_head l hhead]
  rw [dropWhile_eq_self_of_head l.reverse
    (by intro c hc; apply hlast; rwa [List.head?_reverse] at hc)]
  exact List.reverse_reverse l

theorem escapeQuote_ne_nil (a : Char) (t : List Char) :
    escapeQuote (a :: t) ≠ [] := by
  by_cases ha : a = '"' <;> simp [escapeQuote, ha]

theorem escapeQuote_head_not_ws (l : List Char)
    (h : ∀ c ∈ l.head?, isPyWS c = false) :
    ∀ c ∈ (escapeQuote l).head?, isPyWS c = false := by
  intro c hc
  cases l with
  | nil => simp [escapeQuote] at hc
  | cons a t =>
    by_cases ha : a = '"'
    · subst ha
      have : escapeQuote ('"' :: t) = '\\' :: '"' :: escapeQuote t := by
        simp [escapeQuote]
      rw [this] at hc
      cases hc
      decide
    · have : escapeQuote (a :: t) = a :: escapeQuote t := by
        simp [escapeQuote, ha]
      rw [this] at hc
      cases hc
      exact h c rfl

theorem escapeQuote_getLast_not_ws (l : List Char)
    (h : ∀ c ∈ l.getLast?, isPyWS c = false) :
    ∀ c ∈ (escapeQuote l).getLast?, isPyWS c = false := by
  induction l with
  | nil => intro c hc; simp [escapeQuote] at hc
  | cons a t ih =>
    intro c hc
    cases t with
    | nil =>
      by_cases ha : a = '"'
      · subst ha
        have : escapeQuote ['"'] = ['\\', '"'] := by simp [escapeQuote]
        rw [this] at hc
        cases hc
        decide
      · have : escapeQuote [a] = [a] := by simp [escapeQuote, ha]
        rw [this] at hc
        cases hc
        exact h a rfl
    | cons b t' =>
      have hsplit : escapeQuote (a :: b :: t') =
          (if a == '"' then ['\\', '"'] else [a]) ++ escapeQuote (b :: t') := by
        simp [escapeQuote]
      rw [hsplit] at hc
      rw [List.getLast?_append_of_ne_nil _ (escapeQuote_ne_nil b t')] at hc
      exact ih (by intro d hd; apply h; rwa [List.getLast?_cons_cons]) c hc

/-- C6 (amended): quote escaping round-trips — for every display name that
contains no newline character and no leading or trailing whitespace,
re-parsing the emitted string literal recovers the name exactly.  (A name
with an embedded newline is irreversibly rewritten by `escape`, which maps
the newline to a space and strips outer whitespace.) -/
theorem C6_escape_roundtrip_amended (s : String)
    (hn : '\n' ∉ s.data)
    (hhead : ∀ c ∈ s.data.head?, isPyWS c = false)
    (hlast : ∀ c ∈ s.data.getLast?, isPyWS c = false) :
    unescape (escape s) = s := by
  have h1 : (escapeQuote s.data).map nlToSpace = escapeQuote s.data :=
    mapNL_escapeQuote _ hn
  have h2 : stripWS (escapeQuote s.data) = escapeQuote s.data :=
    stripWS_eq_self _ (escapeQuote_head_not_ws _ hhead)
      (escapeQuote_getLast_not_ws _ hlast)
  show String.mk (unescapeAux (stripWS ((escapeQuote s.data).map nlToSpace))) = s
  rw [h1, h2, unescape_escapeQuote]

/-- C6 witness: the round-trip at the concrete name `a"b` (quote inside, no
newline, no outer whitespace). -/
theorem C6_escape_roundtrip_amended_witness :
    ('\n' ∉ ("a\"b" : String).data) ∧ unescape (escape "a\"b") = "a\"b" :=
  ⟨by decide,
   C6_escape_roundtrip_amended "a\"b" (by decide)
     (by intro c hc; injection hc with h; rw [← h]; decide)
     (by intro c hc; injection hc with h; rw [← h]; decide)⟩

/-! ## Counting machinery for the emitted script -/

theorem foldl_append_flatMap {α β : Type} (f : α → List β) :
    ∀ (l : List α) (init : List β),
      l.foldl (fun acc x => acc ++ f x) init = init ++ l.flatMap f := by
  intro l
  induction l with
  | nil => intro init; simp
  | cons x xs ih => intro init; simp [ih, List.flatMap_cons]

theorem foldl_ite_append_flatMap {α β : Type} (p : α → Bool) (f : α → List β) :
    ∀ (l : List α) (init : List β),
      l.foldl (fun acc x => if p x then acc ++ f x else acc) init =
        init ++ l.flatMap (fun x => if p x then f x else []) := by
  intro l
  induction l with
  | nil => intro init; simp
  | cons x xs ih =>
    intro init
    by_cases hp : p x = true
    · simp [hp, ih, List.flatMap_cons]
    · simp [hp, ih, List.flatMap_cons]

theorem countVerb_append (v : String) (xs ys : List Item) :
    countVerb v (xs ++ ys) = countVerb v xs + countVerb v ys := by
  simp [countVerb, List.countP_append]

theorem countVerb_flatMap_zero {α : Type} (v : String) (f : α → List Item)
    (h : ∀ x, countVerb v (f x) = 0) :
    ∀ (l : List α), countVerb v (l.flatMap f) = 0 := by
  intro l
  induction l with
  | nil => rfl
  | cons x xs ih => rw [List.flatMap_cons, countVerb_append, h x, ih]

theorem countVerb_headerItems (v : String) (gleif : Option Gleif)
    (funds : List FundJson) (now : String) :
    countVerb v (headerItems gleif funds now) = 0 := by
  simp [headerItems, countVerb]

theorem countVerb_summaryItems (v : String) (gleif : Option Gleif)
    (funds : List FundJson) :
    countVerb v (summaryItems gleif funds) = 0 := by
  simp [summaryItems, countVerb]

theorem countVerb_chainEntityItems (v : String) (e : GleifEntity)
    (h : ("entity.ensure-limited-company" == v) = false) :
    countVerb v (chainEntityItems e) = 0 := by
  simp [chainEntityItems, countVerb, h]

theorem countVerb_subEntityItems (v : String) (e : GleifEntity)
    (h : ("entity.ensure-limited-company" == v) = false) :
    countVerb v (subEntityItems e) = 0 := by
  simp [subEntityItems, countVerb, h]

theorem countVerb_phase1 (v : String) (gleif : Option Gleif)
    (h : ("entity.ensure-limited-company" == v) = false) :
    countVerb v (phase1Items gleif) = 0 := by
  cases gleif with
  | none => simp [phase1Items, countVerb]
  | some g =>
    have hrw : phase1Items (some g) =
        [Item.comment ruleComment,
         Item.comment ";; PHASE 1: Ownership Chain (GLEIF)",
         Item.comment ruleComment, Item.blank] ++
        (g.ownership_chain.reverse.foldl (fun acc e => acc ++ chainEntityItems e) [] ++
         (if g.subsidiaries ≠ [] then
            [Item.comment ";; Subsidiaries"] ++
            g.subsidiaries.foldl (fun acc e => acc ++ subEntityItems e) []
          else [])) := rfl
    rw [hrw, countVerb_append, countVerb_append]
    have hc : countVerb v [Item.comment ruleComment,
        Item.comment ";; PHASE 1: Ownership Chain (GLEIF)",
        Item.comment ruleComment, Item.blank] = 0 := by simp [countVerb]
    rw [hc, foldl_append_flatMap, List.nil_append,
        countVerb_flatMap_zero v _ (fun e => countVerb_chainEntityItems v e h)]
    split
    · rw [countVerb_append, foldl_append_flatMap, List.nil_append,
          countVerb_flatMap_zero v _ (fun e => countVerb_subEntityItems v e h)]
      simp [countVerb]
    · rfl

theorem countVerb_phase2_none (v : String) :
    countVerb v (phase2Items none) = 0 := by
  simp [phase2Items, countVerb]

theorem phase2Body_eq_flatMap (g : Gleif) :
    phase2Body g = g.relationships.flatMap (fun rel =>
      if truthy (lookupStr (leiBindings g) rel.child_lei) &&
         truthy (lookupStr (leiBindings g) rel.parent_lei) then
        [Item.cmd (ownershipCmd ((lookupStr (leiBindings g) rel.parent_lei).getD "")
                    ((lookupStr (leiBindings g) rel.child_lei).getD "")),
         Item.blank]
      else []) := by
  have h := foldl_ite_append_flatMap
    (fun rel => truthy (lookupStr (leiBindings g) rel.child_lei) &&
                truthy (lookupStr (leiBindings g) rel.parent_lei))
    (fun rel => [Item.cmd (ownershipCmd ((lookupStr (leiBindings g) rel.parent_lei).getD "")
                  ((lookupStr (leiBindings g) rel.child_lei).getD "")),
                 Item.blank])
    g.relationships []
  rw [List.nil_append] at h
  exact h

theorem countVerb_ubo_phase2Body (g : Gleif) :
    countVerb "ubo.add-ownership" (phase2Body g) =
      g.relationships.countP (fun rel =>
        truthy (lookupStr (leiBindings g) rel.child_lei) &&
        truthy (lookupStr (leiBindings g) rel.parent_lei)) := by
  rw [phase2Body_eq_flatMap]
  generalize g.relationships = l
  induction l with
  | nil => rfl
  | cons rel rels ih =>
    rw [List.flatMap_cons, countVerb_append, ih, List.countP_cons]
    by_cases hc : (truthy (lookupStr (leiBindings g) rel.child_lei) &&
        truthy (lookupStr (leiBindings g) rel.parent_lei)) = true
    · simp [hc, countVerb, ownershipCmd]
      omega
    · simp [hc, countVerb]

theorem countVerb_sc_shareClassItems (b : String) (sc : ShareClassJson) :
    countVerb "fund.ensure-share-class" (shareClassItems b sc) =
      if !(sc.isin == "") then 1 else 0 := by
  unfold shareClassItems
  by_cases hi : sc.isin = ""
  · simp [hi, countVerb]
  · simp [hi, countVerb]

theorem countVerb_scFlat (b : String) :
    ∀ (l : List ShareClassJson),
      countVerb "fund.ensure-share-class" (l.flatMap (shareClassItems b)) =
        l.countP (fun sc => !(sc.isin == "")) := by
  intro l
  induction l with
  | nil => rfl
  | cons sc scs ih =>
    rw [List.flatMap_cons, countVerb_append, ih, List.countP_cons,
        countVerb_sc_shareClassItems]
    by_cases hi : (!(sc.isin == "")) = true
    · simp [hi]
      omega
    · simp [hi]

theorem countVerb_ubo_shareClassItems (b : String) (sc : ShareClassJson) :
    countVerb "ubo.add-ownership" (shareClassItems b sc) = 0 := by
  unfold shareClassItems
  split <;> simp [countVerb]

theorem countVerb_two_cmds (v : String) (c₁ c₂ : Cmd)
    (h₁ : (c₁.verb == v) = false) (h₂ : (c₂.verb == v) = false) :
    countVerb v [Item.cmd c₁, Item.blank, Item.cmd c₂, Item.blank] = 0 := by
  simp [countVerb, h₁, h₂]

theorem countVerb_sc_fundItems (f : FundJson) :
    countVerb "fund.ensure-share-class" (fundItems f) =
      (f.shareClasses.take 50).countP (fun sc => !(sc.isin == "")) := by
  unfold fundItems
  rw [countVerb_append]
  have h₁ : ((if f.legalStructure == "SICAV" || f.legalStructure == "OEIC" then
      "fund.ensure-umbrella" else "fund.ensure-subfund") == "fund.ensure-share-class") =
      false := by
    by_cases hb : (f.legalStructure == "SICAV" || f.legalStructure == "OEIC") = true <;>
      simp [hb]
  rw [countVerb_two_cmds _ _ _ h₁ (by rfl), Nat.zero_add]
  split
  · rw [foldl_append_flatMap, List.nil_append, countVerb_append, countVerb_scFlat]
    split <;> simp [countVerb]
  · rename_i hemp
    have hnil : f.shareClasses = [] := by
      by_contra hne
      exact hemp hne
    rw [hnil]
    rfl

theorem countVerb_ubo_fundItems (f : FundJson) :
    countVerb "ubo.add-ownership" (fundItems f) = 0 := by
  unfold fundItems
  rw [countVerb_append]
  have h₁ : ((if f.legalStructure == "SICAV" || f.legalStructure == "OEIC" then
      "fund.ensure-umbrella" else "fund.ensure-subfund") == "ubo.add-ownership") =
      false := by
    by_cases hb : (f.legalStructure == "SICAV" || f.legalStructure == "OEIC") = true <;>
      simp [hb]
  rw [countVerb_two_cmds _ _ _ h₁ (by rfl), Nat.zero_add]
  split
  · rw [foldl_append_flatMap, List.nil_append, countVerb_append,
        countVerb_flatMap_zero _ _ (countVerb_ubo_shareClassItems (fundBinding f))]
    split <;> simp [countVerb]
  · rfl

theorem countVerb_ubo_phase4 (funds : List FundJson) :
    countVerb "ubo.add-ownership" (phase4Items funds) = 0 := by
  unfold phase4Items
  rw [countVerb_append, foldl_append_flatMap, List.nil_append,
      countVerb_flatMap_zero _ _ countVerb_ubo_fundItems]
  simp [countVerb]

theorem dedupeFunds_singleton (f : FundJson) (h : f.fundName ≠ "") :
    dedupeFunds [f] = [f] := by
  simp [dedupeFunds, h]

/-! ## C8 amended -/

/-- C8 (amended): the relationship commands of a compiled script are in
exact correspondence with the edges whose BOTH endpoint bindings resolve —
an edge with a missing child or parent produces zero relationship commands —
and the generator's diagnostics channel is empty on every input: the
dangling edge is dropped silently, with no diagnostic entry. -/
theorem C8_dangling_edge_amended (g : Gleif) (funds : List FundJson) (t : String) :
    countVerb "ubo.add-ownership" (generateFullDsl (some g) funds t) =
      g.relationships.countP (fun rel =>
        truthy (lookupStr (leiBindings g) rel.child_lei) &&
        truthy (lookupStr (leiBindings g) rel.parent_lei)) ∧
    generateFullDslDiags (some g) funds = [] := by
  refine ⟨?_, rfl⟩
  unfold generateFullDsl
  rw [countVerb_append, countVerb_append, countVerb_append, countVerb_append,
      countVerb_append]
  rw [countVerb_headerItems, countVerb_phase1 _ _ (by decide)]
  have hp2 : countVerb "ubo.add-ownership" (phase2Items (some g)) =
      g.relationships.countP (fun rel =>
        truthy (lookupStr (leiBindings g) rel.child_lei) &&
        truthy (lookupStr (leiBindings g) rel.parent_lei)) := by
    unfold phase2Items
    rw [countVerb_append, countVerb_ubo_phase2Body]
    simp [countVerb]
  rw [hp2, (by decide : countVerb "ubo.add-ownership" phase3Items = 0),
      countVerb_ubo_phase4, countVerb_summaryItems]
  omega

/-! ## C5 amended -/

/-- C5 (amended): in the full-DSL generator, a fund record carrying 75 share
classes (each with a nonempty ISIN) emits exactly 50 share-class commands —
the first 50 in input order — and a truncation comment recording the 25
omitted.  (The csv_to_dsl emitter has no such cap; see the counterexample.) -/
theorem C5_truncation_amended (name region ls : String) (scs : List ShareClassJson)
    (hname : name ≠ "") (hlen : scs.length = 75)
    (hisin : ∀ sc ∈ scs, sc.isin ≠ "") (t : String) :
    countVerb "fund.ensure-share-class"
      (generateFullDsl none [⟨name, region, ls, scs⟩] t) = 50 ∧
    Item.comment ";; ... and 25 more share classes (truncated)" ∈
      generateFullDsl none [⟨name, region, ls, scs⟩] t := by
  have hded : dedupeFunds [⟨name, region, ls, scs⟩] = [⟨name, region, ls, scs⟩] :=
    dedupeFunds_singleton _ hname
  constructor
  · unfold generateFullDsl
    rw [countVerb_append, countVerb_append, countVerb_append, countVerb_append,
        countVerb_append]
    rw [countVerb_headerItems, countVerb_phase1 _ _ (by decide),
        countVerb_phase2_none,
        (by decide : countVerb "fund.ensure-share-class" phase3Items = 0),
        countVerb_summaryItems]
    have hp4 : countVerb "fund.ensure-share-class"
        (phase4Items [⟨name, region, ls, scs⟩]) = 50 := by
      unfold phase4Items
      rw [countVerb_append, hded, foldl_append_flatMap, List.nil_append]
      rw [List.flatMap_cons, List.flatMap_nil, List.append_nil, countVerb_sc_fundItems]
      have hall : ∀ sc ∈ scs.take 50, (fun sc : ShareClassJson => !(sc.isin == "")) sc = true := by
        intro sc hsc
        have := hisin sc (List.mem_of_mem_take hsc)
        simpa using this
      rw [List.countP_eq_length.mpr hall, List.length_take, hlen]
      simp [countVerb]
    rw [hp4]
  · have hne : scs ≠ [] := by
      intro h0
      rw [h0] at hlen
      exact absurd hlen (by decide)
    have hgt : scs.length > 50 := by omega
    have hmem : Item.comment ";; ... and 25 more share classes (truncated)" ∈
        fundItems ⟨name, region, ls, scs⟩ := by
      unfold fundItems
      apply List.mem_append_right
      rw [if_pos hne]
      apply List.mem_append_right
      rw [if_pos hgt]
      rw [show (⟨name, region, ls, scs⟩ : FundJson).shareClasses.length = 75 from hlen]
      exact List.mem_cons_self _ _
    unfold generateFullDsl
    apply List.mem_append_left
    apply List.mem_append_right
    unfold phase4Items
    apply List.mem_append_right
    rw [hded]
    simp only [List.foldl_cons, List.foldl_nil, List.nil_append]
    exact hmem

/-- C5 witness: the amended theorem at a concrete 75-element share-class
list. -/
theorem C5_truncation_amended_witness :
    (("F" : String) ≠ "") ∧ (List.replicate 75 sampleShareClassJson).length = 75 ∧
    (countVerb "fund.ensure-share-class"
      (generateFullDsl none [⟨"F", "LU", "", List.replicate 75 sampleShareClassJson⟩] "t") = 50 ∧
     Item.comment ";; ... and 25 more share classes (truncated)" ∈
      generateFullDsl none [⟨"F", "LU", "", List.replicate 75 sampleShareClassJson⟩] "t") :=
  ⟨by decide, by decide,
   C5_truncation_amended "F" "LU" "" (List.replicate 75 sampleShareClassJson)
     (by decide) (by decide)
     (by intro sc hsc
         rw [List.eq_of_mem_replicate hsc]
         decide) "t"⟩

/-! ## C1 amended: the forward-reference invariant -/

theorem bool_and_intro {a b : Bool} (ha : a = true) (hb : b = true) :
    (a && b) = true := by
  rw [ha, hb]
  rfl

theorem bool_and_elim {a b : Bool} (h : (a && b) = true) : a = true ∧ b = true := by
  rw [Bool.and_eq_true] at h
  exact h

theorem bindsList_append (xs ys : List Item) :
    bindsList (xs ++ ys) = bindsList xs ++ bindsList ys := by
  simp [bindsList]

theorem bindsList_flatMap {α : Type} (f : α → List Item) :
    ∀ (l : List α), bindsList (l.flatMap f) = l.flatMap (fun x => bindsList (f x)) := by
  intro l
  induction l with
  | nil => rfl
  | cons x xs ih => simp [List.flatMap_cons, bindsList_append, ih]

theorem fwdOKFrom_append (exc : List String) :
    ∀ (xs : List Item) (bound : List String) (ys : List Item),
      fwdOKFrom exc bound (xs ++ ys) =
        (fwdOKFrom exc bound xs && fwdOKFrom exc (bound ++ bindsList xs) ys) := by
  intro xs
  induction xs with
  | nil => intro bound ys; simp [fwdOKFrom, bindsList]
  | cons x xs ih =>
    intro bound ys
    cases x with
    | comment s =>
      simpa [fwdOKFrom, bindsList, itemBinds] using ih bound ys
    | blank =>
      simpa [fwdOKFrom, bindsList, itemBinds] using ih bound ys
    | cmd c =>
      simp [fwdOKFrom, bindsList, itemBinds, ih, Bool.and_assoc,
            List.flatMap_cons, List.append_assoc]

theorem fwdOKFrom_no_refs (exc : List String) :
    ∀ (items : List Item) (bound : List String),
      (∀ c : Cmd, Item.cmd c ∈ items → c.refs = []) →
      fwdOKFrom exc bound items = true := by
  intro items
  induction items with
  | nil => intro bound _; rfl
  | cons x xs ih =>
    intro bound h
    cases x with
    | comment s => exact ih bound fun c hc => h c (List.mem_cons_of_mem _ hc)
    | blank => exact ih bound fun c hc => h c (List.mem_cons_of_mem _ hc)
    | cmd c =>
      have hr : c.refs = [] := h c (List.mem_cons_self _ _)
      show (c.refs.all _ && _) = true
      rw [hr]
      exact ih _ fun c' hc => h c' (List.mem_cons_of_mem _ hc)

theorem mem_foldl_prepend {α : Type} (key bnd : α → String) :
    ∀ (l : List α) (init : List (String × String)) (p : String × String),
      p ∈ l.foldl (fun d e => (key e, bnd e) :: d) init →
      p ∈ init ∨ ∃ e ∈ l, p = (key e, bnd e) := by
  intro l
  induction l with
  | nil => intro init p hp; exact Or.inl hp
  | cons e es ih =>
    intro init p hp
    rcases ih ((key e, bnd e) :: init) p hp with h | ⟨e', he', hpe⟩
    · rcases List.mem_cons.mp h with h | h
      · exact Or.inr ⟨e, List.mem_cons_self _ _, h⟩
      · exact Or.inl h
    · exact Or.inr ⟨e', List.mem_cons_of_mem _ he', hpe⟩

theorem lookup_leiBindings (g : Gleif) (k v : String)
    (h : lookupStr (leiBindings g) k = some v) :
    ∃ e ∈ g.ownership_chain.reverse ++ g.subsidiaries, v = entityBinding e := by
  unfold lookupStr at h
  rcases Option.map_eq_some'.mp h with ⟨p, hfind, hv⟩
  have hmem := List.mem_of_find?_eq_some hfind
  unfold leiBindings at hmem
  rcases mem_foldl_prepend (fun e => e.lei) entityBinding _ [] p hmem with h0 | ⟨e, he, hpe⟩
  · cases h0
  · exact ⟨e, he, by rw [← hv, hpe]⟩

theorem bindsList_chainEntityItems (e : GleifEntity) :
    bindsList (chainEntityItems e) = [entityBinding e] := by
  simp [chainEntityItems, bindsList, itemBinds]

theorem bindsList_subEntityItems (e : GleifEntity) :
    bindsList (subEntityItems e) = [entityBinding e] := by
  simp [subEntityItems, bindsList, itemBinds]

theorem mem_bindsList_phase1 (g : Gleif) (e : GleifEntity)
    (he : e ∈ g.ownership_chain.reverse ++ g.subsidiaries) :
    entityBinding e ∈ bindsList (phase1Items (some g)) := by
  have hrw : phase1Items (some g) =
      [Item.comment ruleComment,
       Item.comment ";; PHASE 1: Ownership Chain (GLEIF)",
       Item.comment ruleComment, Item.blank] ++
      (g.ownership_chain.reverse.foldl (fun acc e => acc ++ chainEntityItems e) [] ++
       (if g.subsidiaries ≠ [] then
          [Item.comment ";; Subsidiaries"] ++
          g.subsidiaries.foldl (fun acc e => acc ++ subEntityItems e) []
        else [])) := rfl
  rw [hrw, bindsList_append, bindsList_append]
  rcases List.mem_append.mp he with hc | hs
  · apply List.mem_append_right
    apply List.mem_append_left
    rw [foldl_append_flatMap, List.nil_append, bindsList_flatMap]
    exact List.mem_flatMap.mpr ⟨e, hc, by rw [bindsList_chainEntityItems]; exact List.mem_singleton.mpr rfl⟩
  · apply List.mem_append_right
    apply List.mem_append_right
    rw [if_pos (List.ne_nil_of_mem hs), bindsList_append]
    apply List.mem_append_right
    rw [foldl_append_flatMap, List.nil_append, bindsList_flatMap]
    exact List.mem_flatMap.mpr ⟨e, hs, by rw [bindsList_subEntityItems]; exact List.mem_singleton.mpr rfl⟩

theorem truthy_some {o : Option String} (h : truthy o = true) : ∃ s, o = some s := by
  cases o with
  | none => exact absurd h (by simp [truthy])
  | some s => exact ⟨s, rfl⟩

theorem fwdOK_phase2Body (exc bound : List String) (g : Gleif)
    (h : ∀ k v, lookupStr (leiBindings g) k = some v → bound.contains v = true) :
    fwdOKFrom exc bound (phase2Body g) = true := by
  rw [phase2Body_eq_flatMap]
  generalize g.relationships = l
  induction l with
  | nil => rfl
  | cons rel rels ih =>
    rw [List.flatMap_cons, fwdOKFrom_append]
    by_cases hc : (truthy (lookupStr (leiBindings g) rel.child_lei) &&
        truthy (lookupStr (leiBindings g) rel.parent_lei)) = true
    · obtain ⟨h1, h2⟩ := bool_and_elim hc
      rcases truthy_some h1 with ⟨cB, hcB⟩
      rcases truthy_some h2 with ⟨pB, hpB⟩
      refine bool_and_intro ?_ ?_
      · rw [if_pos hc]
        have hcb : bound.contains ((lookupStr (leiBindings g) rel.child_lei).getD "") =
            true := by rw [hcB]; exact h _ cB hcB
        have hpb : bound.contains ((lookupStr (leiBindings g) rel.parent_lei).getD "") =
            true := by rw [hpB]; exact h _ pB hpB
        simp [fwdOKFrom, ownershipCmd, hcb, hpb]
        exact ⟨Or.inl (strContains_iff.mp hpb), Or.inl (strContains_iff.mp hcb)⟩
      · rw [if_pos hc]
        have hbl : bindsList [Item.cmd (ownershipCmd
            ((lookupStr (leiBindings g) rel.parent_lei).getD "")
            ((lookupStr (leiBindings g) rel.child_lei).getD "")), Item.blank] = [] := by
          simp [bindsList, itemBinds, ownershipCmd]
        rw [hbl, List.append_nil]
        exact ih
    · rw [if_neg hc]
      have : bindsList ([] : List Item) = [] := rfl
      rw [this, List.append_nil]
      simpa [fwdOKFrom] using ih

theorem phase1_refs_empty (gleif : Option Gleif) :
    ∀ c : Cmd, Item.cmd c ∈ phase1Items gleif → c.refs = [] := by
  intro c hc
  cases gleif with
  | none => simp [phase1Items] at hc
  | some g =>
    have hrw : phase1Items (some g) =
        [Item.comment ruleComment,
         Item.comment ";; PHASE 1: Ownership Chain (GLEIF)",
         Item.comment ruleComment, Item.blank] ++
        (g.ownership_chain.reverse.foldl (fun acc e => acc ++ chainEntityItems e) [] ++
         (if g.subsidiaries ≠ [] then
            [Item.comment ";; Subsidiaries"] ++
            g.subsidiaries.foldl (fun acc e => acc ++ subEntityItems e) []
          else [])) := rfl
    rw [hrw, foldl_append_flatMap, foldl_append_flatMap, List.nil_append,
        List.nil_append] at hc
    by_cases hsub : g.subsidiaries ≠ []
    · rw [if_pos hsub] at hc
      simp [List.mem_append, List.mem_flatMap, chainEntityItems, subEntityItems] at hc
      rcases hc with ⟨e, _, rfl⟩ | ⟨e, _, rfl⟩ <;> rfl
    · rw [if_neg hsub] at hc
      simp [List.mem_append, List.mem_flatMap, chainEntityItems] at hc
      rcases hc with ⟨e, _, rfl⟩
      rfl

theorem fwdOK_phase3 (bound : List String) :
    fwdOKFrom ["allianz_global_investors_gmbh"] bound phase3Items = true := by
  simp [phase3Items, fwdOKFrom, strContains_append, List.contains_cons]

theorem fwdOK_phase2Items (exc bound : List String) (gleif : Option Gleif)
    (h : ∀ g, gleif = some g → ∀ k v,
      lookupStr (leiBindings g) k = some v → bound.contains v = true) :
    fwdOKFrom exc bound (phase2Items gleif) = true := by
  cases gleif with
  | none => rfl
  | some g =>
    have hrw : phase2Items (some g) =
        [Item.comment ruleComment,
         Item.comment ";; PHASE 2: Ownership Relationships",
         Item.comment ruleComment, Item.blank] ++ phase2Body g := rfl
    rw [hrw, fwdOKFrom_append]
    refine bool_and_intro (by rfl) ?_
    have hb : bound ++ bindsList [Item.comment ruleComment,
        Item.comment ";; PHASE 2: Ownership Relationships",
        Item.comment ruleComment, Item.blank] = bound := by
      simp [bindsList, itemBinds]
    rw [hb]
    exact fwdOK_phase2Body exc bound g (h g rfl)

theorem fwdOK_scFlat (exc : List String) (b : String) :
    ∀ (l : List ShareClassJson) (bound : List String),
      bound.contains b = true →
      fwdOKFrom exc bound (l.flatMap (shareClassItems b)) = true := by
  intro l
  induction l with
  | nil => intro bound _; rfl
  | cons sc scs ih =>
    intro bound hb
    rw [List.flatMap_cons, fwdOKFrom_append]
    refine bool_and_intro ?_ ?_
    · unfold shareClassItems
      split
      · simp [fwdOKFrom, strContains_iff.mp hb]
      · rfl
    · apply ih
      rw [strContains_append, hb]
      rfl

theorem fwdOK_fundItems (exc : List String) (f : FundJson) (bound : List String)
    (h : bound.contains "cbu_agi" = true) :
    fwdOKFrom exc bound (fundItems f) = true := by
  unfold fundItems
  rw [fwdOKFrom_append]
  have hbinds : bindsList
      [Item.cmd
         { verb := if f.legalStructure == "SICAV" || f.legalStructure == "OEIC"
             then "fund.ensure-umbrella" else "fund.ensure-subfund",
           args := [("name", escape f.fundName), ("jurisdiction", f.region),
                    ("regulatory-status", "UCITS")],
           refs := [], binds := some (fundBinding f) },
       Item.blank,
       Item.cmd
         { verb := "cbu.assign-role", args := [("role", "FUND")],
           refs := ["cbu_agi", fundBinding f], binds := none },
       Item.blank] = [fundBinding f] := by
    simp [bindsList, itemBinds]
  refine bool_and_intro ?_ ?_
  · simp [fwdOKFrom, strContains_append, h, List.contains_cons,
          strContains_iff.mp h]
  · rw [hbinds]
    have hb' : (bound ++ [fundBinding f]).contains (fundBinding f) = true := by
      rw [strContains_append]
      have : ([fundBinding f].contains (fundBinding f)) = true := by
        simp [List.contains_cons]
      rw [this, Bool.or_true]
    split
    · rw [foldl_append_flatMap, List.nil_append, fwdOKFrom_append]
      refine bool_and_intro (fwdOK_scFlat exc (fundBinding f) _ _ hb') ?_
      apply fwdOKFrom_no_refs
      intro c hc
      split at hc
      · simp at hc
      · simp at hc
    · rfl

theorem fwdOK_phase4 (exc : List String) (funds : List FundJson) (bound : List String)
    (h : bound.contains "cbu_agi" = true) :
    fwdOKFrom exc bound (phase4Items funds) = true := by
  unfold phase4Items
  rw [fwdOKFrom_append]
  refine bool_and_intro (by rfl) ?_
  rw [foldl_append_flatMap, List.nil_append]
  have hgen : ∀ (l : List FundJson) (bd : List String), bd.contains "cbu_agi" = true →
      fwdOKFrom exc bd (l.flatMap fundItems) = true := by
    intro l
    induction l with
    | nil => intro bd _; rfl
    | cons f fs ih =>
      intro bd hbd
      rw [List.flatMap_cons, fwdOKFrom_append]
      refine bool_and_intro (fwdOK_fundItems exc f bd hbd) ?_
      apply ih
      rw [strContains_append, hbd]
      rfl
  apply hgen
  have hbl : bindsList [Item.comment ruleComment,
      Item.comment (";; PHASE 4: Funds (" ++ toString funds.length ++ " total)"),
      Item.comment ruleComment, Item.blank] = [] := by
    simp [bindsList, itemBinds]
  rw [hbl, List.append_nil]
  exact h

/-- C1 (amended): in every compiled script, every binding referenced by a
command was bound by an `:as` clause of a strictly earlier command — with
the single exception of the hard-coded `@allianz_global_investors_gmbh`
reference in the Phase-3 role assignment, which is emitted unconditionally
and is only bound earlier when the GLEIF input happens to contain an entity
of that slugified name (the counterexample shows the unweakened invariant
fails for an absent GLEIF document). -/
theorem C1_forward_reference_amended (gleif : Option Gleif) (funds : List FundJson)
    (t : String) :
    fwdOKFrom ["allianz_global_investors_gmbh"] [] (generateFullDsl gleif funds t) =
      true := by
  unfold generateFullDsl
  rw [fwdOKFrom_append, fwdOKFrom_append, fwdOKFrom_append, fwdOKFrom_append,
      fwdOKFrom_append]
  refine bool_and_intro (bool_and_intro (bool_and_intro (bool_and_intro
    (bool_and_intro ?_ ?_) ?_) ?_) ?_) ?_
  · exact fwdOKFrom_no_refs _ _ _ (by intro c hc; simp [headerItems] at hc)
  · exact fwdOKFrom_no_refs _ _ _ (phase1_refs_empty gleif)
  · apply fwdOK_phase2Items
    intro g hg k v hkv
    subst hg
    rcases lookup_leiBindings g k v hkv with ⟨e, he, rfl⟩
    have hmem : entityBinding e ∈ bindsList (phase1Items (some g)) :=
      mem_bindsList_phase1 g e he
    rw [bindsList_append, strContains_append, strContains_append,
        strContains_iff.mpr hmem, Bool.or_true, Bool.or_true]
  · exact fwdOK_phase3 _
  · apply fwdOK_phase4
    rw [bindsList_append, strContains_append]
    have hp3 : (bindsList phase3Items).contains "cbu_agi" = true := by rfl
    rw [strContains_append, hp3, Bool.or_true, Bool.or_true]
  · apply fwdOKFrom_no_refs
    intro c hc
    simp [summaryItems] at hc
